import Mathlib

/-
Verification of the manifest-normalization core of the http-streaming
repository (src/manifest.js) against its natural-language specification.

The JavaScript source is shallowly embedded: JS objects become structures
with `Option` fields for possibly-absent properties, JS truthiness is made
explicit (`undefined`, `""` and `0` are falsy), the heterogeneous
`playlists` container (an array additionally carrying string keys) is split
into the ordered list and a string-keyed map `byKey`, and in-place mutation
becomes explicit state passing.  The external collaborators that are not
part of the sources (the URL resolver, the `window.location.href` global,
the `createGroupID` injection point) are passed as explicit parameters.
-/

namespace Vhs

/-- JS truthiness of a possibly-undefined string: `undefined` and `""` are falsy. -/
def truthyS : Option String → Bool
  | none => false
  | some s => decide (s ≠ "")

/-- JS truthiness of a possibly-undefined number: `undefined` and `0` are falsy
(NaN is not modelled; it does not arise in this pipeline). -/
def truthyQ : Option ℚ → Bool
  | none => false
  | some q => decide (q ≠ 0)

/-- JS string coercion of a possibly-undefined string, as performed by template
literals and by property-key coercion: `undefined` prints as "undefined". -/
def optStr : Option String → String
  | none => "undefined"
  | some s => s

/-- One partial segment (an entry of a segment's `parts` array); only its
`duration` is inspected by this core. -/
structure Part where
  duration : ℚ := 0
  deriving DecidableEq

/-- One media segment.  `preloadHints` entries are never inspected, only
deleted, so their content is not modelled. -/
structure Segment where
  duration : ℚ := 0
  parts : Option (List Part) := none
  preloadHints : Option Unit := none
  deriving DecidableEq

/-- The stream-level attributes object.  Only the attributes this core reads
are modelled: `AUDIO` (the audio group reference used by the audio-only
suppression rule) and `BANDWIDTH` (checked for the missing-bandwidth
warning).  The empty object `\x7b\x7d` is `default`. -/
structure Attributes where
  AUDIO : Option String := none
  BANDWIDTH : Option ℚ := none
  deriving DecidableEq

/-- A media playlist (top-level playlist or nested media-group sub-playlist).
`videoBearing` is not a source field: it abstracts the codec information read
only by the external `isAudioOnly` predicate (see `isAudioOnly` below); no
normalization pass writes it. -/
structure Playlist where
  uri : Option String := none
  resolvedUri : Option String := none
  id : Option String := none
  attributes : Option Attributes := none
  playlistErrors_ : Option Nat := none
  segments : Option (List Segment) := none
  videoBearing : Bool := false
  deriving DecidableEq

/-- A rendition descriptor (one `mediaGroups[type][group][label]` leaf).  It
has the same own fields as a playlist plus an optional nested `playlists`
array.  `Object.assign(\x7b\x7d, properties)` copies the shared fields; the
nested `playlists` field can only be an (inert) empty array at the moment the
copy is taken, because the copy is taken only when `playlists` is absent or
empty, so it is not represented on the copy. -/
structure Rendition where
  uri : Option String := none
  resolvedUri : Option String := none
  id : Option String := none
  attributes : Option Attributes := none
  playlistErrors_ : Option Nat := none
  segments : Option (List Segment) := none
  videoBearing : Bool := false
  playlists : Option (List Playlist) := none
  deriving DecidableEq

/-- The shallow copy `Object.assign(\x7b\x7d, properties)` of a rendition
descriptor, used to synthesize its single nested sub-playlist. -/
def Rendition.toPlaylist (r : Rendition) : Playlist :=
  { uri := r.uri, resolvedUri := r.resolvedUri, id := r.id,
    attributes := r.attributes, playlistErrors_ := r.playlistErrors_,
    segments := r.segments, videoBearing := r.videoBearing }

/-- label-key to rendition descriptor, in insertion order (JS object keys). -/
abbrev LabelMap := List (String × Rendition)

/-- group-key to label map, in insertion order. -/
abbrev GroupMap := List (String × LabelMap)

/-- The `mediaGroups` object.  The JS key "CLOSED-CAPTIONS" is spelled
`CLOSED_CAPTIONS` here. -/
structure MediaGroups where
  AUDIO : Option GroupMap := none
  VIDEO : Option GroupMap := none
  CLOSED_CAPTIONS : Option GroupMap := none
  SUBTITLES : Option GroupMap := none
  deriving DecidableEq

/-- A parsed manifest document (main or media).  The JS `playlists` array also
carries string keys; that string-keyed portion is the map `byKey`, in which
both id keys and uri keys live in one namespace, exactly as in the source. -/
@[ext]
structure Manifest where
  uri : Option String := none
  resolvedUri : Option String := none
  targetDuration : Option ℚ := none
  partTargetDuration : Option ℚ := none
  preloadSegment : Option Unit := none
  skip : Option Unit := none
  serverControl : Option Unit := none
  renditionReports : Option Unit := none
  partInf : Option Unit := none
  segments : Option (List Segment) := none
  playlists : List Playlist := []
  byKey : String → Option Playlist := fun _ => none
  mediaGroups : Option MediaGroups := none

/-- createPlaylistID from manifest.js: the template literal
interpolation of index and uri. -/
def createPlaylistID (index : Nat) (uri : String) : String :=
  toString index ++ "-" ++ uri

/-- The default group-id function `groupID` from manifest.js. -/
def groupID (type group label : String) : String :=
  "placeholder-uri-" ++ type ++ "-" ++ group ++ "-" ++ label

/-- The signature of the injectable `createGroupID` parameter of
`addPropertiesToMain` (called with four arguments in the source). -/
abbrev CreateGroupID := String → String → String → Playlist → String

/-- The default value of the `createGroupID` parameter: the source default
`groupID` declares three parameters, so the fourth argument is ignored. -/
def defaultCreateGroupID : CreateGroupID := fun type group label _ => groupID type group label

/-- The external base+relative URL resolver (src/resolve-url.js, not among
the sources; the spec declares it out of scope).  It is passed explicitly;
both arguments can be `undefined` in the source. -/
abbrev ResolveUrl := Option String → Option String → String

/-- Warnings delivered to the `onwarn` sink by `parseManifest`, with the
numeric value the message states. -/
inductive Warn where
  | noTargetDuration (value : ℚ)
  | noPartTargetDuration (value : ℚ)
  deriving DecidableEq

/-- Whether a warning is the missing-targetDuration warning. -/
def Warn.isNoTD : Warn → Bool
  | .noTargetDuration _ => true
  | _ => false

/-- Whether a warning is the missing-partTargetDuration warning. -/
def Warn.isNoPTD : Warn → Bool
  | .noPartTargetDuration _ => true
  | _ => false

/-- The result of `parseManifest`: the manifest plus the warnings delivered
to the `onwarn` sink and the number of `log.error` diagnostics (the
LL-HLS non-compliance message). -/
structure ParseOutcome where
  manifest : Manifest
  warnings : List Warn
  logErrors : Nat

/-- The llhls-stripping block of `parseManifest`: deletes the six
document-level low-latency fields and, per segment, `parts` and
`preloadHints` (`hasOwnProperty` guards delete regardless of value). -/
def stripLLHLS (m : Manifest) : Manifest :=
  let m := { m with preloadSegment := none, skip := none, serverControl := none,
                    renditionReports := none, partInf := none,
                    partTargetDuration := none }
  { m with segments := m.segments.map (fun segs =>
      segs.map (fun s => { s with parts := none, preloadHints := none })) }

/-- `manifest.segments.reduce((acc, s) => Math.max(acc, s.duration), 0)`. -/
def maxSegmentDuration (segs : List Segment) : ℚ :=
  segs.foldl (fun acc s => max acc s.duration) 0

/-- `parts.reduce((acc, p) => Math.max(acc, p.duration), 0)`. -/
def maxPartDuration (ps : List Part) : ℚ :=
  ps.foldl (fun acc p => max acc p.duration) 0

/-- Modelled from the spec: `getLastParts` is imported from src/playlist.js,
which is not among the sources.  The spec (§3, §4.1) defines the "last parts"
as the partial-segment records of the trailing contiguous run of segments
carrying partial-segment records, and derives `partTargetDuration` only from
that run. -/
def getLastParts (m : Manifest) : List Part :=
  (((m.segments.getD []).reverse.takeWhile
      (fun s => !(s.parts.getD []).isEmpty)).reverse).flatMap
    (fun s => s.parts.getD [])

/-- The value `parseManifest` defaults a missing `targetDuration` to. -/
def defaultedTargetDuration (m : Manifest) : ℚ :=
  if m.segments.isSome && !(m.segments.getD []).isEmpty then
    maxSegmentDuration (m.segments.getD [])
  else 10

/-- The `if (!manifest.targetDuration)` block of `parseManifest`: defaults a
falsy `targetDuration` and emits the warning (when a sink is provided). -/
def defaultTargetDurationStep (m : Manifest) (onwarn : Bool) : Manifest × List Warn :=
  if truthyQ m.targetDuration then (m, [])
  else
    ({ m with targetDuration := some (defaultedTargetDuration m) },
     if onwarn then [Warn.noTargetDuration (defaultedTargetDuration m)] else [])

/-- The `if (parts.length && !manifest.partTargetDuration)` block of
`parseManifest`: defaults a falsy `partTargetDuration` from the last parts
and emits the warning plus the `log.error` non-compliance diagnostic (both
guarded on the sink being provided, as in the source). -/
def defaultPartTargetDurationStep (m : Manifest) (onwarn : Bool) :
    Manifest × List Warn × Nat :=
  if !(getLastParts m).isEmpty && !(truthyQ m.partTargetDuration) then
    ({ m with partTargetDuration := some (maxPartDuration (getLastParts m)) },
     (if onwarn then [Warn.noPartTargetDuration (maxPartDuration (getLastParts m))] else [],
      if onwarn then 1 else 0))
  else (m, ([], 0))

/-- parseManifest from manifest.js, starting from the external parser's
output `m` (driving the grammar parser itself is out of scope per the spec).
`onwarn` records whether a warn sink was provided; the source guards both the
sink calls and the `log.error` diagnostic on it. -/
def parseManifest (m : Manifest) (llhls : Bool) (onwarn : Bool) : ParseOutcome :=
  let manifest := if llhls then m else stripLLHLS m
  let s2 := defaultTargetDurationStep manifest onwarn
  let s3 := defaultPartTargetDurationStep s2.1 onwarn
  ⟨s3.1, s2.2 ++ s3.2.1, s3.2.2⟩

/-- One string-keyed write into the heterogeneous `playlists` container. -/
abbrev KV := String × Playlist

/-- A single string-keyed assignment `container[k] = v`. -/
def setK (m : String → Option Playlist) (k : String) (v : Playlist) :
    String → Option Playlist :=
  fun k' => if k' = k then some v else m k'

/-- A sequence of string-keyed assignments, performed left to right (so the
last write to a key wins, as in JS). -/
def applyWrites (m : String → Option Playlist) (ws : List KV) :
    String → Option Playlist :=
  ws.foldl (fun acc kv => setK acc kv.1 kv.2) m

/-- The pair of registrations every setup/walk step performs:
`main.playlists[p.id] = p; main.playlists[p.uri] = p` (uri reference kept for
backwards compatibility; an undefined key coerces to "undefined"). -/
def regWrites (p : Playlist) : List KV :=
  [(optStr p.id, p), (optStr p.uri, p)]

/-- setupMediaPlaylist from manifest.js: assigns the id, resets the error
counter, assigns the uri only when one is passed (truthy), and ensures an
attributes object exists. -/
def setupMediaPlaylist (playlist : Playlist) (uri : Option String) (id : String) :
    Playlist :=
  let playlist := { playlist with id := some id, playlistErrors_ := some (0 : Nat) }
  let playlist := if truthyS uri then { playlist with uri := uri } else playlist
  { playlist with attributes := some (playlist.attributes.getD {}) }

/-- The per-playlist body of the `setupMediaPlaylists` loop: setup with id
`createPlaylistID(i, playlist.uri)` (no uri argument), then
`playlist.resolvedUri = resolveUrl(main.uri, playlist.uri)`. -/
def setupOnePlaylist (resolve : ResolveUrl) (mainUri : Option String) (i : Nat)
    (p : Playlist) : Playlist :=
  let p := setupMediaPlaylist p none (createPlaylistID i (optStr p.uri))
  { p with resolvedUri := some (resolve mainUri p.uri) }

/-- The list part of `setupMediaPlaylists`, indexing from `i`. -/
def setupAllFrom (resolve : ResolveUrl) (mainUri : Option String) :
    Nat → List Playlist → List Playlist
  | _, [] => []
  | i, p :: rest =>
      setupOnePlaylist resolve mainUri i p :: setupAllFrom resolve mainUri (i + 1) rest

/-- All top-level playlists after `setupMediaPlaylists`. -/
def setupAll (resolve : ResolveUrl) (mainUri : Option String) (pl : List Playlist) :
    List Playlist :=
  setupAllFrom resolve mainUri 0 pl

/-- setupMediaPlaylists from manifest.js.  The `while (i--)` loop visits
indices in descending order, so the registrations happen in reverse list
order (relevant when keys collide).  The missing-BANDWIDTH `log.warn` goes to
the global videojs log and is not modelled (no claim references it). -/
def setupMediaPlaylists (resolve : ResolveUrl) (main : Manifest) : Manifest :=
  let pl := setupAll resolve main.uri main.playlists
  { main with playlists := pl,
              byKey := applyWrites main.byKey (pl.reverse.flatMap regWrites) }

/-- The callback type of `forEachMediaGroup`: receives the rendition
descriptor and (mediaType, groupKey, labelKey), returns the updated
descriptor together with the sub-playlists it registered into the lookup
table (in registration order). -/
abbrev Visit := String → String → String → Rendition → Rendition × List Playlist

/-- Visit every label of one group. -/
def walkLabels (visit : Visit) (mt gk : String) (labels : LabelMap) :
    LabelMap × List Playlist :=
  (labels.map (fun e => (e.1, (visit mt gk e.1 e.2).1)),
   labels.flatMap (fun e => (visit mt gk e.1 e.2).2))

/-- Visit every group of one category. -/
def walkGroups (visit : Visit) (mt : String) (g : GroupMap) :
    GroupMap × List Playlist :=
  (g.map (fun e => (e.1, (walkLabels visit mt e.1 e.2).1)),
   g.flatMap (fun e => (walkLabels visit mt e.1 e.2).2))

/-- Visit one category if present (`if (!main.mediaGroups[mediaType]) return`). -/
def walkCat (visit : Visit) (mt : String) : Option GroupMap → Option GroupMap × List Playlist
  | none => (none, [])
  | some g => (some (walkGroups visit mt g).1, (walkGroups visit mt g).2)

/-- forEachMediaGroup from manifest.js: walks only the AUDIO and SUBTITLES
categories, in that order, and is a no-op when `mediaGroups` is absent. -/
def forEachMediaGroup (visit : Visit) : Option MediaGroups → Option MediaGroups × List Playlist
  | none => (none, [])
  | some g =>
      let a := walkCat visit "AUDIO" g.AUDIO
      let s := walkCat visit "SUBTITLES" g.SUBTITLES
      (some { g with AUDIO := a.1, SUBTITLES := s.1 }, a.2 ++ s.2)

/-- The body of `properties.playlists.forEach(function(p, i))` inside
`addPropertiesToMain`: computes the group id and playlist id, resolves an
own uri (only when `resolvedUri` is not already truthy), otherwise assigns
the placeholder (the group id at index 0, the playlist id afterwards) to both
`uri` and `resolvedUri` without running URL resolution, keeps a truthy `id`,
and ensures an attributes object. -/
def subPlaylistStep (resolve : ResolveUrl) (cgf : CreateGroupID)
    (mainUri : Option String) (mt gk lk : String) (i : Nat) (p : Playlist) :
    Playlist :=
  let groupId := cgf mt gk lk p
  let id := createPlaylistID i groupId
  let p :=
    if truthyS p.uri then
      { p with resolvedUri :=
          if truthyS p.resolvedUri then p.resolvedUri
          else some (resolve mainUri p.uri) }
    else
      let u : String := if i = 0 then groupId else id
      { p with uri := some u, resolvedUri := some u }
  let p := { p with id := if truthyS p.id then p.id else some id }
  { p with attributes := some (p.attributes.getD {}) }

/-- Map an index-passing function over a list, indexing from `i`
(`Array.prototype.forEach` index). -/
def mapIdxFrom (f : Nat → Playlist → Playlist) : Nat → List Playlist → List Playlist
  | _, [] => []
  | i, p :: rest => f i p :: mapIdxFrom f (i + 1) rest

/-- Whether a top-level playlist satisfies
`p.attributes && p.attributes.AUDIO && p.attributes.AUDIO === groupKey`. -/
def audioGroupMatches (gk : String) (p : Playlist) : Bool :=
  match p.attributes with
  | none => false
  | some a => truthyS a.AUDIO && decide (a.AUDIO = some gk)

/-- The audio-only suppression condition of `addPropertiesToMain`'s media
group callback: the descriptor needs synthesis, the document is audio only,
the category is AUDIO, the descriptor has no truthy uri, and some top-level
playlist references the group key as its audio group. -/
def suppressRendition (audioOnlyMain : Bool) (mainPlaylists : List Playlist)
    (mt gk : String) (r : Rendition) : Bool :=
  (r.playlists.getD []).isEmpty && audioOnlyMain && (mt == "AUDIO")
    && !(truthyS r.uri) && mainPlaylists.any (audioGroupMatches gk)

/-- The `forEachMediaGroup` callback of `addPropertiesToMain`.  For a
descriptor without a populated nested list it either skips entirely (the
audio-only suppression rule) or synthesizes the single-element list from the
descriptor's shallow copy; then every nested sub-playlist is normalized by
`subPlaylistStep` and registered. -/
def processRendition (resolve : ResolveUrl) (cgf : CreateGroupID)
    (audioOnlyMain : Bool) (mainPlaylists : List Playlist)
    (mainUri : Option String) : Visit :=
  fun mt gk lk r =>
    if suppressRendition audioOnlyMain mainPlaylists mt gk r then
      (r, [])
    else
      let subs := if (r.playlists.getD []).isEmpty then [r.toPlaylist]
                  else r.playlists.getD []
      let subs := mapIdxFrom (subPlaylistStep resolve cgf mainUri mt gk lk) 0 subs
      ({ r with playlists := some subs }, subs)

/-- Sequential composition of two walk callbacks: the second visits the
descriptor produced by the first (the composite's registrations are the
second's). -/
def vComp (f g : Visit) : Visit :=
  fun mt gk lk r => g mt gk lk (f mt gk lk r).1

/-- Modelled from the spec: `isAudioOnly` is imported from src/playlist.js,
which is not among the sources.  The spec (§4.5, §6) describes it as an
external predicate over the document, true iff no video-bearing structural
element exists.  The video-bearing-ness of each structural element (top-level
playlist) is abstracted as the `videoBearing` field, which no normalization
pass writes. -/
def isAudioOnly (main : Manifest) : Bool :=
  main.playlists.all (fun p => !p.videoBearing)

/-- The phony-uri loop of `addPropertiesToMain`: every top-level playlist
with a falsy uri receives the placeholder `placeholder-uri-` ++ index. -/
def addPhonyUrisFrom : Nat → List Playlist → List Playlist
  | _, [] => []
  | i, p :: rest =>
      (if truthyS p.uri then p else { p with uri := some ("placeholder-uri-" ++ toString i) })
        :: addPhonyUrisFrom (i + 1) rest

/-- All top-level playlists after the phony-uri loop. -/
def addPhonyUris (pl : List Playlist) : List Playlist :=
  addPhonyUrisFrom 0 pl

/-- The state of the main document after the first two statements of
`addPropertiesToMain` (base uri assigned, phony uris synthesized). -/
def phase1 (main : Manifest) (uri : String) : Manifest :=
  { main with uri := some uri, playlists := addPhonyUris main.playlists }

/-- The `forEachMediaGroup` callback of `resolveMediaGroupUris`. -/
def resolveGroupUriVisit (resolve : ResolveUrl) (mainUri : Option String) : Visit :=
  fun _ _ _ r =>
    (if truthyS r.uri then { r with resolvedUri := some (resolve mainUri r.uri) } else r, [])

/-- resolveMediaGroupUris from manifest.js. -/
def resolveMediaGroupUris (resolve : ResolveUrl) (main : Manifest) : Manifest :=
  { main with mediaGroups :=
      (forEachMediaGroup (resolveGroupUriVisit resolve main.uri) main.mediaGroups).1 }

/-- addPropertiesToMain from manifest.js: sets the base uri, synthesizes
phony uris, computes the audio-only predicate, walks the media groups
(normalizing and registering nested sub-playlists), then runs
`setupMediaPlaylists` and `resolveMediaGroupUris`.  The `createGroupID`
parameter (source default: `groupID`) is passed explicitly. -/
def addPropertiesToMain (resolve : ResolveUrl) (main : Manifest) (uri : String)
    (cgf : CreateGroupID) : Manifest :=
  let main := { main with uri := some uri }
  let main := { main with playlists := addPhonyUris main.playlists }
  let audioOnlyMain := isAudioOnly main
  let walked := forEachMediaGroup
      (processRendition resolve cgf audioOnlyMain main.playlists main.uri)
      main.mediaGroups
  let main := { main with mediaGroups := walked.1,
                          byKey := applyWrites main.byKey (walked.2.flatMap regWrites) }
  let main := setupMediaPlaylists resolve main
  resolveMediaGroupUris resolve main

/-- All playlists registered into the lookup table by one run of
`addPropertiesToMain`, in registration order: first the media-group
sub-playlists (walk order), then the top-level playlists (descending index
order). -/
def registeredPlaylists (resolve : ResolveUrl) (cgf : CreateGroupID)
    (main : Manifest) (uri : String) : List Playlist :=
  (forEachMediaGroup
      (processRendition resolve cgf (isAudioOnly (phase1 main uri))
        (addPhonyUris main.playlists) (some uri))
      main.mediaGroups).2
    ++ (setupAll resolve (some uri) (addPhonyUris main.playlists)).reverse

/-- The sole playlist entry created by `mainForMedia`. -/
def wrappedPlaylist (uri : String) : Playlist :=
  { uri := some uri, id := some (createPlaylistID 0 uri), resolvedUri := some uri,
    attributes := some {} }

/-- mainForMedia from manifest.js.  `windowHref` models the ambient
`window.location.href` global; the `media` argument is accepted but never
read by the source. -/
def mainForMedia (windowHref : String) (_media : Playlist) (uri : String) : Manifest :=
  let id := createPlaylistID 0 uri
  { mediaGroups := some { AUDIO := some [], VIDEO := some [],
                          CLOSED_CAPTIONS := some [], SUBTITLES := some [] },
    uri := some windowHref,
    resolvedUri := some windowHref,
    playlists := [wrappedPlaylist uri],
    byKey := applyWrites (fun _ => none)
      [(id, wrappedPlaylist uri), (uri, wrappedPlaylist uri)] }

/-- A concrete resolver used by counterexamples and witnesses. -/
def cRes : ResolveUrl := fun b r => optStr b ++ "|" ++ optStr r

/-- The empty rendition descriptor, used by several examples. -/
def emptyRend : Rendition := {}

/-- Looks up the rendition descriptor at (group position, label position)
inside the AUDIO category. -/
def renditionAt (m : Manifest) (gi li : Nat) : Option Rendition :=
  match m.mediaGroups with
  | none => none
  | some g =>
    match g.AUDIO with
    | none => none
    | some gm =>
      match gm[gi]? with
      | none => none
      | some e =>
        match e.2[li]? with
        | none => none
        | some e2 => some e2.2

/-- C1 counterexample input: two top-level playlists sharing one uri. -/
def c1m : Manifest := { playlists := [{ uri := some "a" }, { uri := some "a" }] }

/-- C1 witness input: a single top-level playlist. -/
def c1wm : Manifest := { playlists := [{ uri := some "a" }] }

/-- The normalized form of the single playlist of `c1wm`. -/
def c1wp : Playlist :=
  { uri := some "a", id := some "0-a", resolvedUri := some "base|a",
    attributes := some {}, playlistErrors_ := some 0 }

/-- C5/C10 example media groups: one AUDIO rendition "g"/"l" without uri or
nested playlists. -/
def c5g : MediaGroups := { AUDIO := some [("g", [("l", emptyRend)])] }

/-- C5/C10 example input: an audio-only main whose top-level playlist
references audio group "g". -/
def c5m : Manifest :=
  { playlists := [{ uri := some "top", attributes := some { AUDIO := some "g" } }],
    mediaGroups := some c5g }

/-- C6 witness input: a sub-playlist without its own uri. -/
def c6pNoUri : Playlist := {}

/-- C7 counterexample input: a top-level playlist with a pre-assigned id. -/
def c7m : Manifest := { playlists := [{ uri := some "a", id := some "bogus" }] }

/-- C7 witness input: a sub-playlist with a truthy pre-assigned id. -/
def c7wp : Playlist := { uri := some "u", id := some "5-x" }

/-- C7 witness input: a top-level playlist whose id already equals the
canonical `createPlaylistID(0, uri)` value. -/
def c7wq : Playlist := { uri := some "u", id := some "0-u" }

/-- C9 counterexample group-id function: its result depends on the
sub-playlist argument. -/
def c9cgf : CreateGroupID := fun _ _ _ p => if p.id.isSome then "X" else ""

/-- C9 example input: one AUDIO rendition to be synthesized. -/
def c9m : Manifest := { playlists := [], mediaGroups := some c5g }

/-- The uri of the first AUDIO sub-playlist, used to observe the C9
structural change. -/
def firstAudioSubUri (m : Manifest) : Option (Option String) :=
  (renditionAt m 0 0).bind (fun r => r.playlists.bind (fun l => l.head?.map (fun p => p.uri)))

/-- C2 counterexample input: an explicit but falsy `targetDuration` of 0. -/
def c2cm : Manifest := { targetDuration := some 0, segments := some [{ duration := 5 }] }

/-- C2 witness input: no `targetDuration`, two segments. -/
def c2wm : Manifest := { segments := some [{ duration := 4 }, { duration := 7 }] }

/-- C4 witness input: an explicit `targetDuration`, one trailing segment with
two parts, no `partTargetDuration`. -/
def c4wm : Manifest :=
  { targetDuration := some 7,
    segments := some [{ duration := 4 },
                      { duration := 6, parts := some [{ duration := 1 }, { duration := 2 }] }] }

section Theorems

theorem truthyS_some_iff (s : String) : truthyS (some s) = true ↔ s ≠ "" := by
  simp [truthyS]

theorem createPlaylistID_ne_empty (i : Nat) (u : String) : createPlaylistID i u ≠ "" := by
  intro h
  have h2 := congrArg String.length h
  rw [createPlaylistID, String.length_append, String.length_append] at h2
  have hd : ("-" : String).length = 1 := by decide
  have he : ("" : String).length = 0 := by decide
  rw [hd, he] at h2
  omega

theorem truthyS_createPlaylistID (i : Nat) (u : String) :
    truthyS (some (createPlaylistID i u)) = true := by
  rw [truthyS_some_iff]
  exact createPlaylistID_ne_empty i u

theorem placeholder_uri_ne_empty (i : Nat) : ("placeholder-uri-" ++ toString i) ≠ "" := by
  intro h
  have h2 := congrArg String.length h
  rw [String.length_append] at h2
  have hd : ("placeholder-uri-" : String).length = 16 := by decide
  have he : ("" : String).length = 0 := by decide
  rw [hd, he] at h2
  omega

theorem foldl_max_init_le (l : List ℚ) (a : ℚ) : a ≤ l.foldl max a := by
  induction l generalizing a with
  | nil => simp
  | cons x t ih => exact le_trans (le_max_left a x) (ih (max a x))

theorem foldl_max_mem_le (l : List ℚ) (a : ℚ) : ∀ x ∈ l, x ≤ l.foldl max a := by
  induction l generalizing a with
  | nil => simp
  | cons y t ih =>
    intro x hx
    rcases List.mem_cons.mp hx with h | h
    · subst h
      exact le_trans (le_max_right a x) (foldl_max_init_le t (max a x))
    · exact ih (max a y) x h

theorem foldl_max_eq_or_mem (l : List ℚ) (a : ℚ) :
    l.foldl max a = a ∨ l.foldl max a ∈ l := by
  induction l generalizing a with
  | nil => left; rfl
  | cons y t ih =>
    rcases ih (max a y) with h | h
    · rcases le_total y a with hy | hy
      · left
        rw [List.foldl_cons, h, max_eq_left hy]
      · right
        rw [List.foldl_cons, h, max_eq_right hy]
        exact List.mem_cons_self y t
    · right
      rw [List.foldl_cons]
      exact List.mem_cons_of_mem y h

theorem foldl_max_zero_mem (l : List ℚ) (hne : l ≠ []) (hnn : ∀ x ∈ l, 0 ≤ x) :
    l.foldl max 0 ∈ l := by
  rcases foldl_max_eq_or_mem l 0 with h | h
  · match l, hne with
    | x :: t, _ =>
      have h1 : x ≤ (x :: t).foldl max 0 := foldl_max_mem_le _ 0 x (List.mem_cons_self x t)
      rw [h] at h1 ⊢
      have h0 : (0 : ℚ) ≤ x := hnn x (List.mem_cons_self x t)
      have hx : x = 0 := le_antisymm h1 h0
      rw [← hx]
      exact List.mem_cons_self x t
  · exact h

theorem stripLLHLS_targetDuration (m : Manifest) :
    (stripLLHLS m).targetDuration = m.targetDuration := rfl

theorem stripLLHLS_segments (m : Manifest) :
    (stripLLHLS m).segments = m.segments.map (fun segs =>
      segs.map (fun s => { s with parts := none, preloadHints := none })) := rfl

theorem stripLLHLS_segments_getD (m : Manifest) :
    (stripLLHLS m).segments.getD [] =
      (m.segments.getD []).map (fun s => { s with parts := none, preloadHints := none }) := by
  rw [stripLLHLS_segments]
  cases m.segments <;> rfl

theorem maxSegmentDuration_strip (segs : List Segment) :
    maxSegmentDuration (segs.map (fun s => { s with parts := none, preloadHints := none })) =
      maxSegmentDuration segs := by
  rw [maxSegmentDuration, List.foldl_map]
  rfl

theorem isEmpty_map_strip (segs : List Segment) :
    (segs.map (fun s => ({ s with parts := none, preloadHints := none } : Segment))).isEmpty =
      segs.isEmpty := by
  cases segs <;> rfl

theorem defaultedTargetDuration_strip (m : Manifest) :
    defaultedTargetDuration (stripLLHLS m) = defaultedTargetDuration m := by
  rw [defaultedTargetDuration, defaultedTargetDuration, stripLLHLS_segments]
  cases m.segments with
  | none => rfl
  | some segs =>
    simp only [Option.map_some', Option.isSome_some, Option.getD_some]
    rw [isEmpty_map_strip, maxSegmentDuration_strip]

theorem segments_durations_strip (m : Manifest) :
    ((stripLLHLS m).segments.getD []).map Segment.duration =
      (m.segments.getD []).map Segment.duration := by
  rw [stripLLHLS_segments_getD, List.map_map]
  rfl

theorem dtd_preserves_segments (m : Manifest) (w : Bool) :
    (defaultTargetDurationStep m w).1.segments = m.segments := by
  rw [defaultTargetDurationStep]
  split <;> rfl

theorem dtd_preserves_partTargetDuration (m : Manifest) (w : Bool) :
    (defaultTargetDurationStep m w).1.partTargetDuration = m.partTargetDuration := by
  rw [defaultTargetDurationStep]
  split <;> rfl

theorem dptd_preserves_targetDuration (m : Manifest) (w : Bool) :
    (defaultPartTargetDurationStep m w).1.targetDuration = m.targetDuration := by
  rw [defaultPartTargetDurationStep]
  split <;> rfl

theorem getLastParts_congr (a b : Manifest) (h : a.segments = b.segments) :
    getLastParts a = getLastParts b := by
  rw [getLastParts, getLastParts, h]

theorem isEmpty_false_of_ne_nil {α : Type} {l : List α} (h : l ≠ []) :
    l.isEmpty = false := by
  cases l with
  | nil => exact absurd rfl h
  | cons a t => rfl

theorem takeWhile_map_false {α β : Type} (f : α → β) (p : β → Bool)
    (h : ∀ a, p (f a) = false) (l : List α) : (l.map f).takeWhile p = [] := by
  cases l with
  | nil => rfl
  | cons a t => simp [List.takeWhile_cons, h a]

theorem getLastParts_strip (m : Manifest) : getLastParts (stripLLHLS m) = [] := by
  rw [getLastParts, stripLLHLS_segments_getD, ← List.map_reverse]
  rw [takeWhile_map_false _ _ (fun s => rfl)]
  rfl

theorem dtd_cases (m : Manifest) (w : Bool) :
    defaultTargetDurationStep m w = (m, []) ∨
    defaultTargetDurationStep m w =
      ({ m with targetDuration := some (defaultedTargetDuration m) },
       if w then [Warn.noTargetDuration (defaultedTargetDuration m)] else []) := by
  rw [defaultTargetDurationStep]
  split
  · left; rfl
  · right; rfl

theorem dtd_of_falsy (m : Manifest) (w : Bool) (h : truthyQ m.targetDuration = false) :
    defaultTargetDurationStep m w =
      ({ m with targetDuration := some (defaultedTargetDuration m) },
       if w then [Warn.noTargetDuration (defaultedTargetDuration m)] else []) := by
  simp [defaultTargetDurationStep, h]

theorem dtd_of_truthy (m : Manifest) (w : Bool) (h : truthyQ m.targetDuration = true) :
    defaultTargetDurationStep m w = (m, []) := by
  simp [defaultTargetDurationStep, h]

theorem dptd_of_parts (m : Manifest) (w : Bool)
    (hp : (getLastParts m).isEmpty = false) (h : truthyQ m.partTargetDuration = false) :
    defaultPartTargetDurationStep m w =
      ({ m with partTargetDuration := some (maxPartDuration (getLastParts m)) },
       (if w then [Warn.noPartTargetDuration (maxPartDuration (getLastParts m))] else [],
        if w then 1 else 0)) := by
  simp [defaultPartTargetDurationStep, hp, h]

theorem dptd_of_noparts (m : Manifest) (w : Bool) (hp : (getLastParts m).isEmpty = true) :
    defaultPartTargetDurationStep m w = (m, ([], 0)) := by
  simp [defaultPartTargetDurationStep, hp]

theorem dptd_warnings_countP_noTD (m : Manifest) (w : Bool) :
    ((defaultPartTargetDurationStep m w).2.1.countP Warn.isNoTD) = 0 := by
  rw [defaultPartTargetDurationStep]
  split
  · cases w <;> rfl
  · rfl

theorem dtd_warnings_countP_noPTD (m : Manifest) (w : Bool) :
    ((defaultTargetDurationStep m w).2.countP Warn.isNoPTD) = 0 := by
  rw [defaultTargetDurationStep]
  split
  · rfl
  · cases w <;> rfl

theorem ite_strip_targetDuration (m : Manifest) (b : Bool) :
    (if b then m else stripLLHLS m).targetDuration = m.targetDuration := by
  cases b <;> rfl

theorem ite_strip_defaultedTD (m : Manifest) (b : Bool) :
    defaultedTargetDuration (if b then m else stripLLHLS m) = defaultedTargetDuration m := by
  cases b with
  | false => exact defaultedTargetDuration_strip m
  | true => rfl

theorem maxSegmentDuration_eq (l : List Segment) :
    maxSegmentDuration l = (l.map Segment.duration).foldl max 0 := by
  rw [maxSegmentDuration, List.foldl_map]

theorem maxPartDuration_eq (l : List Part) :
    maxPartDuration l = (l.map Part.duration).foldl max 0 := by
  rw [maxPartDuration, List.foldl_map]

theorem defaultedTargetDuration_spec (m : Manifest) (hne : m.segments.getD [] ≠ [])
    (hnn : ∀ s ∈ m.segments.getD [], 0 ≤ s.duration) :
    defaultedTargetDuration m ∈ (m.segments.getD []).map Segment.duration ∧
    ∀ s ∈ m.segments.getD [], s.duration ≤ defaultedTargetDuration m := by
  have hsome : m.segments.isSome = true := by
    cases hs : m.segments with
    | none => rw [hs] at hne; exact absurd rfl hne
    | some l => rfl
  have hval : defaultedTargetDuration m = maxSegmentDuration (m.segments.getD []) := by
    rw [defaultedTargetDuration, hsome, isEmpty_false_of_ne_nil hne]
    rfl
  have hmapne : (m.segments.getD []).map Segment.duration ≠ [] := by
    cases hl : m.segments.getD [] with
    | nil => exact absurd hl hne
    | cons a t => simp
  have hmapnn : ∀ x ∈ (m.segments.getD []).map Segment.duration, 0 ≤ x := by
    intro x hx
    rcases List.mem_map.mp hx with ⟨s, hs, rfl⟩
    exact hnn s hs
  constructor
  · rw [hval, maxSegmentDuration_eq]
    exact foldl_max_zero_mem _ hmapne hmapnn
  · intro s hs
    rw [hval, maxSegmentDuration_eq]
    exact foldl_max_mem_le _ 0 s.duration (List.mem_map.mpr ⟨s, hs, rfl⟩)

theorem maxPartDuration_spec (l : List Part) (hne : l ≠ [])
    (hnn : ∀ p ∈ l, 0 ≤ p.duration) :
    maxPartDuration l ∈ l.map Part.duration ∧
    ∀ p ∈ l, p.duration ≤ maxPartDuration l := by
  have hmapne : l.map Part.duration ≠ [] := by
    cases hl : l with
    | nil => exact absurd hl hne
    | cons a t => simp
  have hmapnn : ∀ x ∈ l.map Part.duration, 0 ≤ x := by
    intro x hx
    rcases List.mem_map.mp hx with ⟨p, hp, rfl⟩
    exact hnn p hp
  constructor
  · rw [maxPartDuration_eq]
    exact foldl_max_zero_mem _ hmapne hmapnn
  · intro p hp
    rw [maxPartDuration_eq]
    exact foldl_max_mem_le _ 0 p.duration (List.mem_map.mpr ⟨p, hp, rfl⟩)

/-- C3: for every input document, `parseManifest` with llhls disabled returns
a manifest with none of the document-level low-latency fields
(`preloadSegment`, `skip`, `serverControl`, `renditionReports`, `partInf`,
`partTargetDuration`) and with no segment carrying `parts` or `preloadHints`,
regardless of what the parser populated. -/
theorem parseManifest_llhls_false_strips (m : Manifest) (onwarn : Bool) :
    (parseManifest m false onwarn).manifest.preloadSegment = none ∧
    (parseManifest m false onwarn).manifest.skip = none ∧
    (parseManifest m false onwarn).manifest.serverControl = none ∧
    (parseManifest m false onwarn).manifest.renditionReports = none ∧
    (parseManifest m false onwarn).manifest.partInf = none ∧
    (parseManifest m false onwarn).manifest.partTargetDuration = none ∧
    ∀ s ∈ (parseManifest m false onwarn).manifest.segments.getD [],
      s.parts = none ∧ s.preloadHints = none := by
  have hM : (parseManifest m false onwarn).manifest =
      (defaultPartTargetDurationStep
        (defaultTargetDurationStep (stripLLHLS m) onwarn).1 onwarn).1 := rfl
  have hglp : getLastParts (defaultTargetDurationStep (stripLLHLS m) onwarn).1 = [] := by
    rw [getLastParts_congr _ (stripLLHLS m) (dtd_preserves_segments _ _)]
    exact getLastParts_strip m
  have hd := dptd_of_noparts (defaultTargetDurationStep (stripLLHLS m) onwarn).1 onwarn
      (by rw [hglp]; rfl)
  rw [hM, hd]
  rcases dtd_cases (stripLLHLS m) onwarn with h | h <;> rw [h] <;>
    refine ⟨rfl, rfl, rfl, rfl, rfl, rfl, ?_⟩ <;>
    · show ∀ s ∈ (stripLLHLS m).segments.getD [], s.parts = none ∧ s.preloadHints = none
      rw [stripLLHLS_segments_getD]
      intro s hs
      rcases List.mem_map.mp hs with ⟨s0, _, rfl⟩
      exact ⟨rfl, rfl⟩

/-- C2 (amended): when `targetDuration` is falsy (absent, or explicitly 0 --
the JS truthiness test conflates the two), `parseManifest` defaults it to the
maximum segment duration (10 with no segments) and fires exactly one warning
stating that value; an explicit nonzero `targetDuration` is never overridden
and fires no such warning.  The unamended claim ("an explicit value is never
overridden") fails at an explicit value of 0. -/
theorem parseManifest_targetDuration_defaulting (m : Manifest) (llhls : Bool) :
    (truthyQ m.targetDuration = false →
      (parseManifest m llhls true).manifest.targetDuration =
          some (defaultedTargetDuration m) ∧
      (parseManifest m llhls true).warnings.countP Warn.isNoTD = 1 ∧
      Warn.noTargetDuration (defaultedTargetDuration m) ∈
          (parseManifest m llhls true).warnings ∧
      (m.segments.getD [] ≠ [] → (∀ s ∈ m.segments.getD [], 0 ≤ s.duration) →
        defaultedTargetDuration m ∈ (m.segments.getD []).map Segment.duration ∧
        ∀ s ∈ m.segments.getD [], s.duration ≤ defaultedTargetDuration m)) ∧
    (∀ t : ℚ, m.targetDuration = some t → t ≠ 0 →
      (parseManifest m llhls true).manifest.targetDuration = some t ∧
      (parseManifest m llhls true).warnings.countP Warn.isNoTD = 0) := by
  have hMtd : (if llhls then m else stripLLHLS m).targetDuration = m.targetDuration :=
    ite_strip_targetDuration m llhls
  have hMdtd : defaultedTargetDuration (if llhls then m else stripLLHLS m) =
      defaultedTargetDuration m := ite_strip_defaultedTD m llhls
  have hman : (parseManifest m llhls true).manifest =
      (defaultPartTargetDurationStep
        (defaultTargetDurationStep (if llhls then m else stripLLHLS m) true).1 true).1 := rfl
  have hwarn : (parseManifest m llhls true).warnings =
      (defaultTargetDurationStep (if llhls then m else stripLLHLS m) true).2 ++
      (defaultPartTargetDurationStep
        (defaultTargetDurationStep (if llhls then m else stripLLHLS m) true).1 true).2.1 := rfl
  constructor
  · intro hfalsy
    have h2 := dtd_of_falsy (if llhls then m else stripLLHLS m) true
      (by rw [hMtd]; exact hfalsy)
    constructor
    · rw [hman, h2, dptd_preserves_targetDuration]
      show some (defaultedTargetDuration (if llhls then m else stripLLHLS m)) =
        some (defaultedTargetDuration m)
      rw [hMdtd]
    constructor
    · rw [hwarn, h2, List.countP_append, dptd_warnings_countP_noTD]
      rfl
    constructor
    · rw [hwarn, h2, hMdtd]
      exact List.mem_append_left _ (List.mem_singleton.mpr rfl)
    · exact defaultedTargetDuration_spec m
  · intro t ht htne
    have htr : truthyQ (if llhls then m else stripLLHLS m).targetDuration = true := by
      rw [hMtd, ht]
      simp [truthyQ, htne]
    have h2 := dtd_of_truthy (if llhls then m else stripLLHLS m) true htr
    constructor
    · rw [hman, h2, dptd_preserves_targetDuration]
      show (if llhls then m else stripLLHLS m).targetDuration = some t
      rw [hMtd, ht]
    · rw [hwarn, h2, List.countP_append, dptd_warnings_countP_noTD]
      rfl

/-- C2 counterexample: a document carrying the explicit `targetDuration` value
0 is overridden (JS falsiness), contradicting "a document that carries an
explicit targetDuration value is never overridden". -/
theorem parseManifest_targetDuration_override_cex :
    c2cm.targetDuration = some 0 ∧
    (parseManifest c2cm true true).manifest.targetDuration = some 5 := by
  constructor
  · rfl
  · decide

/-- C2 witness: a concrete document without `targetDuration` gets the maximum
segment duration 7 and exactly one warning. -/
theorem parseManifest_targetDuration_defaulting_witness :
    truthyQ c2wm.targetDuration = false ∧
    (parseManifest c2wm true true).manifest.targetDuration = some 7 ∧
    (parseManifest c2wm true true).warnings.countP Warn.isNoTD = 1 := by
  have h := (parseManifest_targetDuration_defaulting c2wm true).1 (by rfl)
  exact ⟨rfl, h.1.trans (by decide), h.2.1⟩

/-- C4: for every document with last parts and without `partTargetDuration`,
`parseManifest` (llhls enabled, sink provided) assigns the maximum
partial-segment duration among the last parts, emits the warning stating the
defaulted value and the elevated `log.error` non-compliance diagnostic, and
returns normally. -/
theorem parseManifest_partTargetDuration_defaulting (m : Manifest)
    (hparts : getLastParts m ≠ [])
    (hptd : m.partTargetDuration = none) :
    (parseManifest m true true).manifest.partTargetDuration =
        some (maxPartDuration (getLastParts m)) ∧
    Warn.noPartTargetDuration (maxPartDuration (getLastParts m)) ∈
        (parseManifest m true true).warnings ∧
    (parseManifest m true true).warnings.countP Warn.isNoPTD = 1 ∧
    (parseManifest m true true).logErrors = 1 ∧
    ((∀ p ∈ getLastParts m, 0 ≤ p.duration) →
      maxPartDuration (getLastParts m) ∈ (getLastParts m).map Part.duration ∧
      ∀ p ∈ getLastParts m, p.duration ≤ maxPartDuration (getLastParts m)) := by
  have hman : (parseManifest m true true).manifest =
      (defaultPartTargetDurationStep (defaultTargetDurationStep m true).1 true).1 := rfl
  have hwarn : (parseManifest m true true).warnings =
      (defaultTargetDurationStep m true).2 ++
      (defaultPartTargetDurationStep (defaultTargetDurationStep m true).1 true).2.1 := rfl
  have herr : (parseManifest m true true).logErrors =
      (defaultPartTargetDurationStep (defaultTargetDurationStep m true).1 true).2.2 := rfl
  have hseg := dtd_preserves_segments m true
  have hglp : getLastParts (defaultTargetDurationStep m true).1 = getLastParts m :=
    getLastParts_congr _ m hseg
  have hpd : (defaultTargetDurationStep m true).1.partTargetDuration = none := by
    rw [dtd_preserves_partTargetDuration]
    exact hptd
  have h3 := dptd_of_parts (defaultTargetDurationStep m true).1 true
    (by rw [hglp]; exact isEmpty_false_of_ne_nil hparts)
    (by rw [hpd]; rfl)
  refine ⟨?_, ?_, ?_, ?_, ?_⟩
  · rw [hman, h3]
    show some (maxPartDuration (getLastParts (defaultTargetDurationStep m true).1)) =
      some (maxPartDuration (getLastParts m))
    rw [hglp]
  · rw [hwarn, h3, hglp]
    exact List.mem_append_right _ (List.mem_singleton.mpr rfl)
  · rw [hwarn, h3, List.countP_append, dtd_warnings_countP_noPTD]
    rfl
  · rw [herr, h3]
    rfl
  · intro hnn
    exact maxPartDuration_spec (getLastParts m) hparts hnn

/-- C4 witness: a concrete document whose trailing segment carries two parts
gets `partTargetDuration` 2 and one `log.error` diagnostic. -/
theorem parseManifest_partTargetDuration_defaulting_witness :
    getLastParts c4wm ≠ [] ∧ c4wm.partTargetDuration = none ∧
    (parseManifest c4wm true true).manifest.partTargetDuration = some 2 ∧
    (parseManifest c4wm true true).logErrors = 1 := by
  have h := parseManifest_partTargetDuration_defaulting c4wm (by decide) rfl
  exact ⟨by decide, rfl, h.1.trans (by decide), h.2.2.2.1⟩

/-- C8: `mainForMedia` produces a document whose sole playlist is reachable
at index 0, at id `createPlaylistID(0, uri)`, and at key `uri`, all three the
same instance with an empty attributes object; `mediaGroups` has all four
categories present and empty; the document's own uri (and resolvedUri)
defaults to the playback context's location. -/
theorem mainForMedia_shape (href : String) (media : Playlist) (uri : String) :
    (mainForMedia href media uri).playlists = [wrappedPlaylist uri] ∧
    (mainForMedia href media uri).byKey (createPlaylistID 0 uri) =
        some (wrappedPlaylist uri) ∧
    (mainForMedia href media uri).byKey uri = some (wrappedPlaylist uri) ∧
    (wrappedPlaylist uri).attributes = some {} ∧
    (mainForMedia href media uri).mediaGroups =
      some { AUDIO := some [], VIDEO := some [],
             CLOSED_CAPTIONS := some [], SUBTITLES := some [] } ∧
    (mainForMedia href media uri).uri = some href ∧
    (mainForMedia href media uri).resolvedUri = some href := by
  refine ⟨rfl, ?_, ?_, rfl, rfl, rfl, rfl⟩
  · show setK (setK (fun _ => none) (createPlaylistID 0 uri) (wrappedPlaylist uri))
        uri (wrappedPlaylist uri) (createPlaylistID 0 uri) = some (wrappedPlaylist uri)
    rw [setK, setK]
    by_cases h : createPlaylistID 0 uri = uri
    · rw [if_pos h]
    · rw [if_neg h, if_pos rfl]
  · show setK (setK (fun _ => none) (createPlaylistID 0 uri) (wrappedPlaylist uri))
        uri (wrappedPlaylist uri) uri = some (wrappedPlaylist uri)
    rw [setK]
    rw [if_pos rfl]

/-- C6: inside the media-group walk, a nested sub-playlist without its own
(truthy) uri gets the group id as uri at position 0 and the playlist id
`createPlaylistID(subIndex, groupId)` at later positions, with `resolvedUri`
set to that same unresolved placeholder (for every resolver, i.e. no URL
resolution is performed); a sub-playlist with its own uri keeps it, and gets
`resolvedUri` computed by resolution against the document base uri only when
not already (truthily) present. -/
theorem subPlaylistStep_uri_assignment (resolve : ResolveUrl) (cgf : CreateGroupID)
    (mainUri : Option String) (mt gk lk : String) (i : Nat) (p : Playlist) :
    (truthyS p.uri = false →
      (subPlaylistStep resolve cgf mainUri mt gk lk i p).uri =
        some (if i = 0 then cgf mt gk lk p else createPlaylistID i (cgf mt gk lk p)) ∧
      (subPlaylistStep resolve cgf mainUri mt gk lk i p).resolvedUri =
        some (if i = 0 then cgf mt gk lk p else createPlaylistID i (cgf mt gk lk p))) ∧
    (truthyS p.uri = true →
      (subPlaylistStep resolve cgf mainUri mt gk lk i p).uri = p.uri ∧
      (subPlaylistStep resolve cgf mainUri mt gk lk i p).resolvedUri =
        (if truthyS p.resolvedUri then p.resolvedUri
         else some (resolve mainUri p.uri))) := by
  constructor
  · intro h
    constructor <;> simp [subPlaylistStep, h]
  · intro h
    constructor <;> simp [subPlaylistStep, h]

/-- C6 witness: a concrete sub-playlist without uri at position 1 receives
the playlist id as uri and as (unresolved) resolvedUri. -/
theorem subPlaylistStep_uri_assignment_witness :
    truthyS c6pNoUri.uri = false ∧
    (subPlaylistStep cRes defaultCreateGroupID (some "base") "AUDIO" "g" "l" 1 c6pNoUri).uri =
      some "1-placeholder-uri-AUDIO-g-l" ∧
    (subPlaylistStep cRes defaultCreateGroupID (some "base") "AUDIO" "g" "l" 1 c6pNoUri).resolvedUri =
      some "1-placeholder-uri-AUDIO-g-l" := by
  have h := (subPlaylistStep_uri_assignment cRes defaultCreateGroupID (some "base")
    "AUDIO" "g" "l" 1 c6pNoUri).1 (by decide)
  exact ⟨by decide, h.1.trans (by decide), h.2.trans (by decide)⟩

/-- C7 (amended): a media-group sub-playlist's already-assigned truthy id is
preserved by the walk (`p.id = p.id || id`); a top-level playlist's id is
recomputed by `setupMediaPlaylist` as `createPlaylistID(position, uri)`, so it
is left unchanged precisely when it already equals that canonical value (in
particular ids assigned by the passes themselves are stable).  The unamended
claim fails: an arbitrary pre-assigned top-level id is overwritten. -/
theorem playlist_id_stability (resolve : ResolveUrl) (cgf : CreateGroupID)
    (mainUri : Option String) (mt gk lk : String) (i : Nat) (p : Playlist)
    (hid : truthyS p.id = true) :
    (subPlaylistStep resolve cgf mainUri mt gk lk i p).id = p.id ∧
    (p.id = some (createPlaylistID i (optStr p.uri)) →
      (setupOnePlaylist resolve mainUri i p).id = p.id) := by
  constructor
  · cases hu : truthyS p.uri with
    | true => simp [subPlaylistStep, hu, hid]
    | false => simp [subPlaylistStep, hu, hid]
  · intro hcanon
    rw [setupOnePlaylist, setupMediaPlaylist]
    simp [truthyS]
    exact hcanon.symm

/-- C7 counterexample: a top-level playlist carrying the pre-assigned id
"bogus" has its id recomputed to "0-a" by the normalization passes,
contradicting "an id is never recomputed after assignment". -/
theorem playlist_id_recomputed_cex :
    (c7m.playlists.head?.map (fun p => p.id)) = some (some "bogus") ∧
    ((addPropertiesToMain cRes c7m "base" defaultCreateGroupID).playlists.head?.map
        (fun p => p.id)) = some (some "0-a") := by
  constructor
  · rfl
  · decide

/-- C7 witness: a sub-playlist id "5-x" survives the walk step, and a
top-level playlist whose id already equals the canonical "0-u" keeps it. -/
theorem playlist_id_stability_witness :
    truthyS c7wp.id = true ∧
    (subPlaylistStep cRes defaultCreateGroupID (some "b") "AUDIO" "g" "l" 0 c7wp).id =
      some "5-x" ∧
    c7wq.id = some (createPlaylistID 0 (optStr c7wq.uri)) ∧
    (setupOnePlaylist cRes (some "b") 0 c7wq).id = some "0-u" := by
  have h1 := playlist_id_stability cRes defaultCreateGroupID (some "b") "AUDIO" "g" "l" 0 c7wp
    (by decide)
  have h2 := playlist_id_stability cRes defaultCreateGroupID (some "b") "AUDIO" "g" "l" 0 c7wq
    (by decide)
  exact ⟨by decide, h1.1.trans (by decide), by decide, (h2.2 (by decide)).trans (by decide)⟩

theorem audioGroupMatches_uri_update (gk : String) (p : Playlist) (u : Option String) :
    audioGroupMatches gk { p with uri := u } = audioGroupMatches gk p := rfl

theorem any_matches_phonyFrom (gk : String) (i : Nat) (pl : List Playlist) :
    (addPhonyUrisFrom i pl).any (audioGroupMatches gk) =
      pl.any (audioGroupMatches gk) := by
  induction pl generalizing i with
  | nil => rfl
  | cons p t ih =>
    rw [addPhonyUrisFrom]
    cases hu : truthyS p.uri <;>
      simp [List.any_cons, ih, audioGroupMatches_uri_update]

theorem audioGroupMatches_setupOne (gk : String) (resolve : ResolveUrl)
    (u : Option String) (i : Nat) (p : Playlist) :
    audioGroupMatches gk (setupOnePlaylist resolve u i p) = audioGroupMatches gk p := by
  cases ha : p.attributes <;>
    simp [audioGroupMatches, setupOnePlaylist, setupMediaPlaylist, ha, truthyS]

theorem any_matches_setupFrom (gk : String) (resolve : ResolveUrl) (u : Option String)
    (i : Nat) (pl : List Playlist) :
    (setupAllFrom resolve u i pl).any (audioGroupMatches gk) =
      pl.any (audioGroupMatches gk) := by
  induction pl generalizing i with
  | nil => rfl
  | cons p t ih =>
    rw [setupAllFrom]
    simp [List.any_cons, ih, audioGroupMatches_setupOne]

theorem all_vb_phonyFrom (i : Nat) (pl : List Playlist) :
    (addPhonyUrisFrom i pl).all (fun p => !p.videoBearing) =
      pl.all (fun p => !p.videoBearing) := by
  induction pl generalizing i with
  | nil => rfl
  | cons p t ih =>
    rw [addPhonyUrisFrom]
    cases hu : truthyS p.uri <;> simp [List.all_cons, ih]

theorem all_vb_setupFrom (resolve : ResolveUrl) (u : Option String) (i : Nat)
    (pl : List Playlist) :
    (setupAllFrom resolve u i pl).all (fun p => !p.videoBearing) =
      pl.all (fun p => !p.videoBearing) := by
  induction pl generalizing i with
  | nil => rfl
  | cons p t ih =>
    rw [setupAllFrom]
    simp [List.all_cons, ih, setupOnePlaylist, setupMediaPlaylist, truthyS]

theorem isAudioOnly_phony (main : Manifest) (uri : String) :
    isAudioOnly (phase1 main uri) = isAudioOnly main := by
  show (addPhonyUris main.playlists).all (fun p => !p.videoBearing) =
    main.playlists.all (fun p => !p.videoBearing)
  rw [addPhonyUris]
  exact all_vb_phonyFrom 0 main.playlists

theorem processRendition_suppressed (resolve : ResolveUrl) (cgf : CreateGroupID)
    (pl : List Playlist) (u : Option String) (gk lk : String) (r : Rendition)
    (hr : (r.playlists.getD []).isEmpty = true) (huri : truthyS r.uri = false)
    (hany : pl.any (audioGroupMatches gk) = true) :
    processRendition resolve cgf true pl u "AUDIO" gk lk r = (r, []) := by
  simp [processRendition, suppressRendition, hr, huri, hany]

theorem resolveGroupUriVisit_falsy (resolve : ResolveUrl) (u : Option String)
    (mt gk lk : String) (r : Rendition) (h : truthyS r.uri = false) :
    (resolveGroupUriVisit resolve u mt gk lk r).1 = r := by
  simp [resolveGroupUriVisit, h]

theorem walk_result_at (visit : Visit) (g : MediaGroups) (gm : GroupMap)
    (gi li : Nat) (gk lk : String) (labels : LabelMap) (r : Rendition)
    (ha : g.AUDIO = some gm)
    (hgi : gm[gi]? = some (gk, labels)) (hli : labels[li]? = some (lk, r)) :
    ∃ g2 : MediaGroups, ∃ gm2 : GroupMap, ∃ labels2 : LabelMap,
      (forEachMediaGroup visit (some g)).1 = some g2 ∧
      g2.AUDIO = some gm2 ∧
      gm2[gi]? = some (gk, labels2) ∧
      labels2[li]? = some (lk, (visit "AUDIO" gk lk r).1) := by
  refine ⟨{ g with AUDIO := some (walkGroups visit "AUDIO" gm).1,
                   SUBTITLES := (walkCat visit "SUBTITLES" g.SUBTITLES).1 },
    (walkGroups visit "AUDIO" gm).1, (walkLabels visit "AUDIO" gk labels).1,
    ?_, rfl, ?_, ?_⟩
  · have hred : (forEachMediaGroup visit (some g)).1 =
        some { g with AUDIO := (walkCat visit "AUDIO" g.AUDIO).1,
                      SUBTITLES := (walkCat visit "SUBTITLES" g.SUBTITLES).1 } := rfl
    rw [hred, ha]
    rfl
  · show ((walkGroups visit "AUDIO" gm).1 : GroupMap)[gi]? = _
    rw [walkGroups]
    show (gm.map _)[gi]? = _
    rw [List.getElem?_map, hgi]
    rfl
  · show ((walkLabels visit "AUDIO" gk labels).1 : LabelMap)[li]? = _
    rw [walkLabels]
    show (labels.map _)[li]? = _
    rw [List.getElem?_map, hli]
    rfl

theorem addProps_mediaGroups (resolve : ResolveUrl) (cgf : CreateGroupID)
    (main : Manifest) (uri : String) :
    (addPropertiesToMain resolve main uri cgf).mediaGroups =
      (forEachMediaGroup (resolveGroupUriVisit resolve (some uri))
        (forEachMediaGroup (processRendition resolve cgf
            (isAudioOnly (phase1 main uri))
            (addPhonyUris main.playlists) (some uri))
          main.mediaGroups).1).1 := rfl

theorem suppressed_descriptor_pipeline (resolve : ResolveUrl) (cgf : CreateGroupID)
    (main : Manifest) (uri : String) (g : MediaGroups) (gm : GroupMap)
    (labels : LabelMap) (gi li : Nat) (gk lk : String) (r : Rendition)
    (hmg : main.mediaGroups = some g) (ha : g.AUDIO = some gm)
    (hgi : gm[gi]? = some (gk, labels)) (hli : labels[li]? = some (lk, r))
    (hr : (r.playlists.getD []).isEmpty = true)
    (huri : truthyS r.uri = false)
    (hao : isAudioOnly main = true)
    (hmatch : main.playlists.any (audioGroupMatches gk) = true) :
    ∃ g2 : MediaGroups, ∃ gm2 : GroupMap, ∃ labels2 : LabelMap,
      (addPropertiesToMain resolve main uri cgf).mediaGroups = some g2 ∧
      g2.AUDIO = some gm2 ∧ gm2[gi]? = some (gk, labels2) ∧
      labels2[li]? = some (lk, r) := by
  have hAO : isAudioOnly (phase1 main uri) = true := by
    rw [isAudioOnly_phony]
    exact hao
  have hany : (addPhonyUris main.playlists).any (audioGroupMatches gk) = true := by
    rw [addPhonyUris, any_matches_phonyFrom]
    exact hmatch
  obtain ⟨G1, gm2, labels2, h0, h1, h2, h3⟩ := walk_result_at
    (processRendition resolve cgf (isAudioOnly (phase1 main uri))
      (addPhonyUris main.playlists) (some uri))
    g gm gi li gk lk labels r ha hgi hli
  rw [hAO] at h0 h3
  rw [processRendition_suppressed resolve cgf _ _ gk lk r hr huri hany] at h3
  obtain ⟨G2, gm3, labels3, h4, h4a, h5, h6⟩ := walk_result_at
    (resolveGroupUriVisit resolve (some uri)) G1 gm2 gi li gk lk labels2 r h1 h2 h3
  rw [resolveGroupUriVisit_falsy resolve (some uri) "AUDIO" gk lk r huri] at h6
  refine ⟨G2, gm3, labels3, ?_, h4a, h5, h6⟩
  rw [addProps_mediaGroups, hmg, hAO, h0]
  exact h4

/-- C5: in an audio-only document, an AUDIO rendition descriptor with no
populated nested playlists and no own uri, whose group key is referenced as
the audio group of some top-level playlist, does not acquire a synthesized
nested-playlist sequence: after `addPropertiesToMain` its `playlists` field
is exactly what it was before. -/
theorem audio_only_suppression (resolve : ResolveUrl) (cgf : CreateGroupID)
    (main : Manifest) (uri : String) (g : MediaGroups) (gm : GroupMap)
    (labels : LabelMap) (gi li : Nat) (gk lk : String) (r : Rendition)
    (hmg : main.mediaGroups = some g) (ha : g.AUDIO = some gm)
    (hgi : gm[gi]? = some (gk, labels)) (hli : labels[li]? = some (lk, r))
    (hr : (r.playlists.getD []).isEmpty = true)
    (huri : truthyS r.uri = false)
    (hao : isAudioOnly main = true)
    (hmatch : main.playlists.any (audioGroupMatches gk) = true) :
    ∃ g2 : MediaGroups, ∃ gm2 : GroupMap, ∃ labels2 : LabelMap, ∃ r2 : Rendition,
      (addPropertiesToMain resolve main uri cgf).mediaGroups = some g2 ∧
      g2.AUDIO = some gm2 ∧ gm2[gi]? = some (gk, labels2) ∧
      labels2[li]? = some (lk, r2) ∧ r2.playlists = r.playlists := by
  obtain ⟨g2, gm2, labels2, h1, h2, h3, h4⟩ := suppressed_descriptor_pipeline
    resolve cgf main uri g gm labels gi li gk lk r hmg ha hgi hli hr huri hao hmatch
  exact ⟨g2, gm2, labels2, r, h1, h2, h3, h4, rfl⟩

/-- C5 witness: the concrete audio-only document `c5m` leaves its suppressed
rendition without a nested playlists array. -/
theorem audio_only_suppression_witness :
    (renditionAt (addPropertiesToMain cRes c5m "base" defaultCreateGroupID) 0 0).map
      (fun r => r.playlists) = some none := by
  obtain ⟨g2, gm2, labels2, r2, h1, h2, h3, h4, h5⟩ :=
    audio_only_suppression cRes defaultCreateGroupID c5m "base" c5g
      [("g", [("l", emptyRend)])] [("l", emptyRend)] 0 0 "g" "l" emptyRend
      rfl rfl (by decide) (by decide) (by decide) (by decide) (by decide) (by decide)
  simp only [renditionAt, h1, h2, h3, h4, Option.map_some']
  rw [h5]
  rfl

/-- C10: when the audio-only suppression case applies, the rendition
descriptor is returned entirely unmodified with an empty registration list
(nothing is written into the lookup table for it), and the full pipeline
leaves the descriptor at its position exactly as it was. -/
theorem audio_only_suppression_frame (resolve : ResolveUrl) (cgf : CreateGroupID)
    (main : Manifest) (uri : String) (g : MediaGroups) (gm : GroupMap)
    (labels : LabelMap) (gi li : Nat) (gk lk : String) (r : Rendition)
    (hmg : main.mediaGroups = some g) (ha : g.AUDIO = some gm)
    (hgi : gm[gi]? = some (gk, labels)) (hli : labels[li]? = some (lk, r))
    (hr : (r.playlists.getD []).isEmpty = true)
    (huri : truthyS r.uri = false)
    (hao : isAudioOnly main = true)
    (hmatch : main.playlists.any (audioGroupMatches gk) = true) :
    (∀ pl : List Playlist, ∀ u : Option String,
      pl.any (audioGroupMatches gk) = true →
      processRendition resolve cgf true pl u "AUDIO" gk lk r = (r, [])) ∧
    (∃ g2 : MediaGroups, ∃ gm2 : GroupMap, ∃ labels2 : LabelMap,
      (addPropertiesToMain resolve main uri cgf).mediaGroups = some g2 ∧
      g2.AUDIO = some gm2 ∧ gm2[gi]? = some (gk, labels2) ∧
      labels2[li]? = some (lk, r)) := by
  constructor
  · intro pl u hany
    exact processRendition_suppressed resolve cgf pl u gk lk r hr huri hany
  · exact suppressed_descriptor_pipeline resolve cgf main uri g gm labels gi li gk lk r
      hmg ha hgi hli hr huri hao hmatch

/-- C10 witness: on the concrete document `c5m`, the suppressed rendition is
returned untouched with an empty registration list, and the pipeline leaves
it exactly equal to the original descriptor. -/
theorem audio_only_suppression_frame_witness :
    processRendition cRes defaultCreateGroupID true c5m.playlists (some "base")
      "AUDIO" "g" "l" emptyRend = (emptyRend, []) ∧
    renditionAt (addPropertiesToMain cRes c5m "base" defaultCreateGroupID) 0 0 =
      some emptyRend := by
  obtain ⟨hproc, g2, gm2, labels2, h1, h2, h3, h4⟩ :=
    audio_only_suppression_frame cRes defaultCreateGroupID c5m "base" c5g
      [("g", [("l", emptyRend)])] [("l", emptyRend)] 0 0 "g" "l" emptyRend
      rfl rfl (by decide) (by decide) (by decide) (by decide) (by decide) (by decide)
  refine ⟨hproc c5m.playlists (some "base") (by decide), ?_⟩
  simp only [renditionAt, h1, h2, h3, h4]

theorem applyWrites_cons (m : String → Option Playlist) (kv : KV) (t : List KV) :
    applyWrites m (kv :: t) = applyWrites (setK m kv.1 kv.2) t := rfl

theorem applyWrites_append (m : String → Option Playlist) (w1 w2 : List KV) :
    applyWrites m (w1 ++ w2) = applyWrites (applyWrites m w1) w2 := by
  rw [applyWrites, applyWrites, applyWrites, List.foldl_append]

theorem applyWrites_not_written (m : String → Option Playlist) (ws : List KV)
    (k : String) (h : ∀ kv ∈ ws, kv.1 ≠ k) : applyWrites m ws k = m k := by
  induction ws generalizing m with
  | nil => rfl
  | cons kv t ih =>
    rw [applyWrites_cons, ih _ (fun kv2 h2 => h kv2 (List.mem_cons_of_mem kv h2))]
    simp only [setK]
    rw [if_neg (fun hh => h kv (List.mem_cons_self kv t) hh.symm)]

theorem applyWrites_functional (m : String → Option Playlist) (ws : List KV)
    (hf : ∀ kv1 ∈ ws, ∀ kv2 ∈ ws, kv1.1 = kv2.1 → kv1.2 = kv2.2) :
    ∀ kv ∈ ws, applyWrites m ws kv.1 = some kv.2 := by
  induction ws generalizing m with
  | nil =>
    intro kv h
    exact absurd h (List.not_mem_nil kv)
  | cons a t ih =>
    have hf2 : ∀ kv1 ∈ t, ∀ kv2 ∈ t, kv1.1 = kv2.1 → kv1.2 = kv2.2 := by
      intro kv1 h1 kv2 h2
      exact hf kv1 (List.mem_cons_of_mem a h1) kv2 (List.mem_cons_of_mem a h2)
    intro kv hkv
    rw [applyWrites_cons]
    rcases List.mem_cons.mp hkv with heq | hmem
    · subst heq
      by_cases hdup : ∃ kv2 ∈ t, kv2.1 = kv.1
      · rcases hdup with ⟨kv2, hkv2, hk⟩
        have hv : kv2.2 = kv.2 :=
          hf kv2 (List.mem_cons_of_mem kv hkv2) kv (List.mem_cons_self kv t) hk
        have h3 := ih (setK m kv.1 kv.2) hf2 kv2 hkv2
        rw [hk, hv] at h3
        exact h3
      · push_neg at hdup
        rw [applyWrites_not_written _ _ _ hdup]
        simp [setK]
    · exact ih (setK m a.1 a.2) hf2 kv hmem

theorem flatMap_regWrites_functional (R : List Playlist)
    (hfun : ∀ p ∈ R, ∀ q ∈ R,
      (optStr p.id = optStr q.id ∨ optStr p.id = optStr q.uri ∨
       optStr p.uri = optStr q.id ∨ optStr p.uri = optStr q.uri) → p = q) :
    ∀ kv1 ∈ R.flatMap regWrites, ∀ kv2 ∈ R.flatMap regWrites,
      kv1.1 = kv2.1 → kv1.2 = kv2.2 := by
  intro kv1 h1 kv2 h2 hk
  rcases List.mem_flatMap.mp h1 with ⟨p, hp, hkv1⟩
  rcases List.mem_flatMap.mp h2 with ⟨q, hq, hkv2⟩
  have e1 : kv1 = (optStr p.id, p) ∨ kv1 = (optStr p.uri, p) := by
    simpa [regWrites] using hkv1
  have e2 : kv2 = (optStr q.id, q) ∨ kv2 = (optStr q.uri, q) := by
    simpa [regWrites] using hkv2
  rcases e1 with rfl | rfl <;> rcases e2 with rfl | rfl
  · exact hfun p hp q hq (Or.inl hk)
  · exact hfun p hp q hq (Or.inr (Or.inl hk))
  · exact hfun p hp q hq (Or.inr (Or.inr (Or.inl hk)))
  · exact hfun p hp q hq (Or.inr (Or.inr (Or.inr hk)))

theorem addProps_byKey (resolve : ResolveUrl) (cgf : CreateGroupID)
    (main : Manifest) (uri : String) :
    (addPropertiesToMain resolve main uri cgf).byKey =
      applyWrites main.byKey
        ((registeredPlaylists resolve cgf main uri).flatMap regWrites) := by
  have h1 : (addPropertiesToMain resolve main uri cgf).byKey =
      applyWrites (applyWrites main.byKey
        ((forEachMediaGroup (processRendition resolve cgf (isAudioOnly (phase1 main uri))
            (addPhonyUris main.playlists) (some uri)) main.mediaGroups).2.flatMap regWrites))
        ((setupAll resolve (some uri) (addPhonyUris main.playlists)).reverse.flatMap
          regWrites) := rfl
  rw [h1, registeredPlaylists, List.flatMap_append, applyWrites_append]

/-- C1 (amended): provided the registration keys are collision-free across
distinct registered playlists, every playlist registered by the normalization
passes (`addPropertiesToMain`, which includes `setupMediaPlaylists`) is
reachable in the lookup table under its id key and under its uri key, both
referring to the identical playlist; the playlist wrapped by `mainForMedia`
is unconditionally reachable under its id key and its uri key.  The unamended
universal claim fails when two playlists share a uri (the shared uri key then
denotes only one of them). -/
theorem dual_key_registration (resolve : ResolveUrl) (cgf : CreateGroupID)
    (main : Manifest) (uri : String)
    (hfun : ∀ p ∈ registeredPlaylists resolve cgf main uri,
      ∀ q ∈ registeredPlaylists resolve cgf main uri,
      (optStr p.id = optStr q.id ∨ optStr p.id = optStr q.uri ∨
       optStr p.uri = optStr q.id ∨ optStr p.uri = optStr q.uri) → p = q) :
    (∀ p ∈ registeredPlaylists resolve cgf main uri,
      (addPropertiesToMain resolve main uri cgf).byKey (optStr p.id) = some p ∧
      (addPropertiesToMain resolve main uri cgf).byKey (optStr p.uri) = some p) ∧
    (∀ href : String, ∀ media : Playlist, ∀ u : String,
      (mainForMedia href media u).byKey (optStr (wrappedPlaylist u).id) =
        some (wrappedPlaylist u) ∧
      (mainForMedia href media u).byKey (optStr (wrappedPlaylist u).uri) =
        some (wrappedPlaylist u)) := by
  constructor
  · intro p hp
    have hf := flatMap_regWrites_functional (registeredPlaylists resolve cgf main uri) hfun
    constructor
    · rw [addProps_byKey]
      exact applyWrites_functional main.byKey _ hf (optStr p.id, p)
        (List.mem_flatMap.mpr ⟨p, hp, by simp [regWrites]⟩)
    · rw [addProps_byKey]
      exact applyWrites_functional main.byKey _ hf (optStr p.uri, p)
        (List.mem_flatMap.mpr ⟨p, hp, by simp [regWrites]⟩)
  · intro href media u
    constructor
    · show setK (setK (fun _ => none) (createPlaylistID 0 u) (wrappedPlaylist u))
          u (wrappedPlaylist u) (createPlaylistID 0 u) = some (wrappedPlaylist u)
      by_cases h : createPlaylistID 0 u = u
      · simp [setK, h]
      · simp [setK, h]
    · show setK (setK (fun _ => none) (createPlaylistID 0 u) (wrappedPlaylist u))
          u (wrappedPlaylist u) u = some (wrappedPlaylist u)
      simp [setK]

/-- C1 counterexample: with two top-level playlists sharing uri "a", the
playlist with id "1-a" is reachable under its id key, but the key "a" (its
uri) holds the other playlist (id "0-a"), so id key and uri key do not refer
to the identical instance. -/
theorem dual_key_registration_cex :
    ((addPropertiesToMain cRes c1m "base" defaultCreateGroupID).byKey "1-a").map
        (fun p => p.id) = some (some "1-a") ∧
    ((addPropertiesToMain cRes c1m "base" defaultCreateGroupID).byKey "a").map
        (fun p => p.id) = some (some "0-a") ∧
    (addPropertiesToMain cRes c1m "base" defaultCreateGroupID).byKey "1-a" ≠
      (addPropertiesToMain cRes c1m "base" defaultCreateGroupID).byKey "a" := by
  refine ⟨?_, ?_, ?_⟩ <;> decide

/-- C1 witness: on a single-playlist document the registered playlist is
reachable under both its id key "0-a" and its uri key "a". -/
theorem dual_key_registration_witness :
    (addPropertiesToMain cRes c1wm "base" defaultCreateGroupID).byKey "0-a" =
      some c1wp ∧
    (addPropertiesToMain cRes c1wm "base" defaultCreateGroupID).byKey "a" =
      some c1wp := by
  have h := (dual_key_registration cRes defaultCreateGroupID c1wm "base"
    (by decide)).1 c1wp (by decide)
  exact ⟨h.1, h.2⟩

theorem truthyS_placeholder (i : Nat) :
    truthyS (some ("placeholder-uri-" ++ toString i)) = true := by
  rw [truthyS_some_iff]
  exact placeholder_uri_ne_empty i

theorem phonyFrom_truthy (i : Nat) (pl : List Playlist) :
    ∀ p ∈ addPhonyUrisFrom i pl, truthyS p.uri = true := by
  induction pl generalizing i with
  | nil =>
    intro p hp
    exact absurd hp (List.not_mem_nil p)
  | cons q t ih =>
    intro p hp
    rw [addPhonyUrisFrom] at hp
    rcases List.mem_cons.mp hp with heq | hmem
    · subst heq
      cases hu : truthyS q.uri with
      | true => simp [hu]
      | false => simp [hu, truthyS_placeholder i]
    · exact ih (i + 1) p hmem

theorem phonyFrom_of_truthy (i : Nat) (pl : List Playlist)
    (h : ∀ p ∈ pl, truthyS p.uri = true) : addPhonyUrisFrom i pl = pl := by
  induction pl generalizing i with
  | nil => rfl
  | cons q t ih =>
    rw [addPhonyUrisFrom, if_pos (h q (List.mem_cons_self q t)),
      ih (i + 1) (fun p hp => h p (List.mem_cons_of_mem q hp))]

theorem setupOnePlaylist_uri (resolve : ResolveUrl) (u : Option String) (i : Nat)
    (p : Playlist) : (setupOnePlaylist resolve u i p).uri = p.uri := rfl

theorem setupFrom_truthy (resolve : ResolveUrl) (u : Option String) (i : Nat)
    (pl : List Playlist) (h : ∀ p ∈ pl, truthyS p.uri = true) :
    ∀ p ∈ setupAllFrom resolve u i pl, truthyS p.uri = true := by
  induction pl generalizing i with
  | nil =>
    intro p hp
    exact absurd hp (List.not_mem_nil p)
  | cons q t ih =>
    intro p hp
    rw [setupAllFrom] at hp
    rcases List.mem_cons.mp hp with heq | hmem
    · subst heq
      rw [setupOnePlaylist_uri]
      exact h q (List.mem_cons_self q t)
    · exact ih (i + 1) (fun p2 hp2 => h p2 (List.mem_cons_of_mem q hp2)) p hmem

theorem setupOnePlaylist_idem (resolve : ResolveUrl) (u : Option String) (i : Nat)
    (p : Playlist) :
    setupOnePlaylist resolve u i (setupOnePlaylist resolve u i p) =
      setupOnePlaylist resolve u i p := rfl

theorem setupAllFrom_idem (resolve : ResolveUrl) (u : Option String) (i : Nat)
    (pl : List Playlist) :
    setupAllFrom resolve u i (setupAllFrom resolve u i pl) =
      setupAllFrom resolve u i pl := by
  induction pl generalizing i with
  | nil => rfl
  | cons q t ih =>
    rw [setupAllFrom, setupAllFrom, setupOnePlaylist_idem, ih (i + 1)]

theorem mapIdxFrom_isEmpty (f : Nat → Playlist → Playlist) (i : Nat)
    (l : List Playlist) : (mapIdxFrom f i l).isEmpty = l.isEmpty := by
  cases l <;> rfl

theorem mapIdxFrom_idem (f : Nat → Playlist → Playlist)
    (hf : ∀ j q, f j (f j q) = f j q) (i : Nat) (l : List Playlist) :
    mapIdxFrom f i (mapIdxFrom f i l) = mapIdxFrom f i l := by
  induction l generalizing i with
  | nil => rfl
  | cons q t ih =>
    rw [mapIdxFrom, mapIdxFrom, hf, ih (i + 1)]

theorem applyWrites_char (m : String → Option Playlist) (ws : List KV) (k : String) :
    applyWrites m ws k =
      match ws.reverse.find? (fun kv => decide (kv.1 = k)) with
      | some kv => some kv.2
      | none => m k := by
  induction ws generalizing m with
  | nil => rfl
  | cons kv t ih =>
    rw [applyWrites_cons, ih]
    rw [List.reverse_cons, List.find?_append]
    cases hf : t.reverse.find? (fun kv2 => decide (kv2.1 = k)) with
    | some x => rfl
    | none =>
      simp only [Option.none_or]
      show setK m kv.1 kv.2 k = _
      rw [setK]
      by_cases hk : kv.1 = k
      · rw [if_pos hk.symm]
        simp [hk]
      · rw [if_neg (fun hh => hk hh.symm)]
        simp [hk]

theorem applyWrites_self (m : String → Option Playlist) (ws : List KV) :
    applyWrites (applyWrites m ws) ws = applyWrites m ws := by
  funext k
  rw [applyWrites_char, applyWrites_char (m := m)]
  cases hf : ws.reverse.find? (fun kv => decide (kv.1 = k)) with
  | some x => rfl
  | none => rfl

theorem map_congr_mem {α β : Type} (l : List α) (f g : α → β)
    (h : ∀ a ∈ l, f a = g a) : l.map f = l.map g := by
  induction l with
  | nil => rfl
  | cons a t ih =>
    rw [List.map_cons, List.map_cons, h a (List.mem_cons_self a t),
      ih (fun a2 h2 => h a2 (List.mem_cons_of_mem a h2))]

theorem flatMap_congr_mem {α β : Type} (l : List α) (f g : α → List β)
    (h : ∀ a ∈ l, f a = g a) : l.flatMap f = l.flatMap g := by
  induction l with
  | nil => rfl
  | cons a t ih =>
    rw [List.flatMap_cons, List.flatMap_cons, h a (List.mem_cons_self a t),
      ih (fun a2 h2 => h a2 (List.mem_cons_of_mem a h2))]

theorem walkLabels_fuse (f g : Visit) (mt gk : String) (l : LabelMap) :
    walkLabels g mt gk (walkLabels f mt gk l).1 = walkLabels (vComp f g) mt gk l := by
  rw [walkLabels, walkLabels, walkLabels, List.map_map, List.flatMap_map]
  rfl

theorem walkGroups_fuse (f g : Visit) (mt : String) (gm : GroupMap) :
    walkGroups g mt (walkGroups f mt gm).1 = walkGroups (vComp f g) mt gm := by
  rw [walkGroups, walkGroups, walkGroups, List.map_map, List.flatMap_map]
  refine congrArg₂ Prod.mk ?_ ?_
  · exact map_congr_mem gm _ _ (fun e _ => by
      show (e.1, (walkLabels g mt e.1 (walkLabels f mt e.1 e.2).1).1) = _
      rw [walkLabels_fuse])
  · exact flatMap_congr_mem gm _ _ (fun e _ => by
      show (walkLabels g mt e.1 (walkLabels f mt e.1 e.2).1).2 = _
      rw [walkLabels_fuse])

theorem walkCat_fuse (f g : Visit) (mt : String) (o : Option GroupMap) :
    walkCat g mt (walkCat f mt o).1 = walkCat (vComp f g) mt o := by
  cases o with
  | none => rfl
  | some gm =>
    show walkCat g mt (some (walkGroups f mt gm).1) = _
    rw [walkCat, walkCat, walkGroups_fuse]

theorem forEachMediaGroup_fuse (f g : Visit) (mg : Option MediaGroups) :
    forEachMediaGroup g (forEachMediaGroup f mg).1 =
      forEachMediaGroup (vComp f g) mg := by
  cases mg with
  | none => rfl
  | some gr =>
    show forEachMediaGroup g (some _) = _
    rw [forEachMediaGroup, forEachMediaGroup]
    show (some _, _) = (some _, _)
    rw [walkCat_fuse, walkCat_fuse]

theorem walkLabels_congr1 (F G : Visit) (mt gk : String) (l : LabelMap)
    (h : ∀ mt2 gk2 lk r, (F mt2 gk2 lk r).1 = (G mt2 gk2 lk r).1) :
    (walkLabels F mt gk l).1 = (walkLabels G mt gk l).1 := by
  rw [walkLabels, walkLabels]
  exact map_congr_mem l _ _ (fun e _ => by rw [h])

theorem walkLabels_congr2 (F G : Visit) (mt gk : String) (l : LabelMap)
    (h : ∀ mt2 gk2 lk r, (F mt2 gk2 lk r).2 = (G mt2 gk2 lk r).2) :
    (walkLabels F mt gk l).2 = (walkLabels G mt gk l).2 := by
  rw [walkLabels, walkLabels]
  exact flatMap_congr_mem l _ _ (fun e _ => by rw [h])

theorem walkGroups_congr1 (F G : Visit) (mt : String) (gm : GroupMap)
    (h : ∀ mt2 gk2 lk r, (F mt2 gk2 lk r).1 = (G mt2 gk2 lk r).1) :
    (walkGroups F mt gm).1 = (walkGroups G mt gm).1 := by
  rw [walkGroups, walkGroups]
  exact map_congr_mem gm _ _ (fun e _ => by rw [walkLabels_congr1 F G mt e.1 e.2 h])

theorem walkGroups_congr2 (F G : Visit) (mt : String) (gm : GroupMap)
    (h : ∀ mt2 gk2 lk r, (F mt2 gk2 lk r).2 = (G mt2 gk2 lk r).2) :
    (walkGroups F mt gm).2 = (walkGroups G mt gm).2 := by
  rw [walkGroups, walkGroups]
  exact flatMap_congr_mem gm _ _ (fun e _ => by rw [walkLabels_congr2 F G mt e.1 e.2 h])

theorem walkCat_congr1 (F G : Visit) (mt : String) (o : Option GroupMap)
    (h : ∀ mt2 gk2 lk r, (F mt2 gk2 lk r).1 = (G mt2 gk2 lk r).1) :
    (walkCat F mt o).1 = (walkCat G mt o).1 := by
  cases o with
  | none => rfl
  | some gm =>
    show some (walkGroups F mt gm).1 = some (walkGroups G mt gm).1
    rw [walkGroups_congr1 F G mt gm h]

theorem walkCat_congr2 (F G : Visit) (mt : String) (o : Option GroupMap)
    (h : ∀ mt2 gk2 lk r, (F mt2 gk2 lk r).2 = (G mt2 gk2 lk r).2) :
    (walkCat F mt o).2 = (walkCat G mt o).2 := by
  cases o with
  | none => rfl
  | some gm => exact walkGroups_congr2 F G mt gm h

theorem forEachMediaGroup_congr1 (F G : Visit) (mg : Option MediaGroups)
    (h : ∀ mt2 gk2 lk r, (F mt2 gk2 lk r).1 = (G mt2 gk2 lk r).1) :
    (forEachMediaGroup F mg).1 = (forEachMediaGroup G mg).1 := by
  cases mg with
  | none => rfl
  | some gr =>
    show some _ = some _
    rw [walkCat_congr1 F G "AUDIO" gr.AUDIO h, walkCat_congr1 F G "SUBTITLES" gr.SUBTITLES h]

theorem forEachMediaGroup_congr2 (F G : Visit) (mg : Option MediaGroups)
    (h : ∀ mt2 gk2 lk r, (F mt2 gk2 lk r).2 = (G mt2 gk2 lk r).2) :
    (forEachMediaGroup F mg).2 = (forEachMediaGroup G mg).2 := by
  cases mg with
  | none => rfl
  | some gr =>
    show (walkCat F "AUDIO" gr.AUDIO).2 ++ (walkCat F "SUBTITLES" gr.SUBTITLES).2 = _
    rw [walkCat_congr2 F G "AUDIO" gr.AUDIO h, walkCat_congr2 F G "SUBTITLES" gr.SUBTITLES h]
    rfl

theorem subPlaylistStep_idem (resolve : ResolveUrl) (cgf : CreateGroupID)
    (u : Option String) (mt gk lk : String) (i : Nat) (p : Playlist)
    (hcgf : ∀ a b c q1 q2, cgf a b c q1 = cgf a b c q2) :
    subPlaylistStep resolve cgf u mt gk lk i
        (subPlaylistStep resolve cgf u mt gk lk i p) =
      subPlaylistStep resolve cgf u mt gk lk i p := by
  have hg : ∀ q, cgf mt gk lk q = cgf mt gk lk p := fun q => hcgf mt gk lk q p
  cases hu : truthyS p.uri with
  | true =>
    cases hr : truthyS p.resolvedUri with
    | true =>
      cases hid : truthyS p.id with
      | true => simp [subPlaylistStep, hu, hr, hid]
      | false => simp [subPlaylistStep, hu, hr, hid, truthyS_createPlaylistID]
    | false =>
      cases hid : truthyS p.id with
      | true => simp [subPlaylistStep, hu, hr, hid]
      | false => simp [subPlaylistStep, hu, hr, hid, truthyS_createPlaylistID]
  | false =>
    by_cases hi : i = 0
    · subst hi
      by_cases hg0 : cgf mt gk lk p = ""
      · have ht : truthyS (some (cgf mt gk lk p)) = false := by
          rw [hg0]
          rfl
        cases hid : truthyS p.id with
        | true => simp [subPlaylistStep, hu, hid, hg, ht, truthyS_createPlaylistID]
        | false => simp [subPlaylistStep, hu, hid, hg, ht, truthyS_createPlaylistID]
      · have ht : truthyS (some (cgf mt gk lk p)) = true := by
          rw [truthyS_some_iff]
          exact hg0
        cases hid : truthyS p.id with
        | true => simp [subPlaylistStep, hu, hid, hg, ht]
        | false => simp [subPlaylistStep, hu, hid, hg, ht, truthyS_createPlaylistID]
    · have ht : truthyS (some (createPlaylistID i (cgf mt gk lk p))) = true :=
        truthyS_createPlaylistID i _
      cases hid : truthyS p.id with
      | true => simp [subPlaylistStep, hu, hid, hi, hg, ht]
      | false => simp [subPlaylistStep, hu, hid, hi, hg, ht, truthyS_createPlaylistID]

theorem resolveGroupUriVisit_eq (resolve : ResolveUrl) (u : Option String)
    (mt gk lk : String) (r : Rendition) :
    (resolveGroupUriVisit resolve u mt gk lk r).1 =
      (if truthyS r.uri then { r with resolvedUri := some (resolve u r.uri) } else r) := rfl

theorem resolveGroupUriVisit_idem (resolve : ResolveUrl) (u : Option String)
    (mt gk lk : String) (r : Rendition) :
    (resolveGroupUriVisit resolve u mt gk lk
        (resolveGroupUriVisit resolve u mt gk lk r).1).1 =
      (resolveGroupUriVisit resolve u mt gk lk r).1 := by
  cases hu : truthyS r.uri with
  | true => simp [resolveGroupUriVisit, hu]
  | false => simp [resolveGroupUriVisit, hu]

theorem processRendition_of_suppress (resolve : ResolveUrl) (cgf : CreateGroupID)
    (ao : Bool) (pl : List Playlist) (u : Option String) (mt gk lk : String)
    (r : Rendition) (hs : suppressRendition ao pl mt gk r = true) :
    processRendition resolve cgf ao pl u mt gk lk r = (r, []) := by
  simp only [processRendition]
  rw [if_pos hs]

theorem processRendition_not_suppressed (resolve : ResolveUrl) (cgf : CreateGroupID)
    (ao : Bool) (pl : List Playlist) (u : Option String) (mt gk lk : String)
    (r : Rendition) (hs : suppressRendition ao pl mt gk r = false) :
    processRendition resolve cgf ao pl u mt gk lk r =
      ({ r with playlists := some (mapIdxFrom (subPlaylistStep resolve cgf u mt gk lk) 0
          (if (r.playlists.getD []).isEmpty then [r.toPlaylist] else r.playlists.getD [])) },
       mapIdxFrom (subPlaylistStep resolve cgf u mt gk lk) 0
          (if (r.playlists.getD []).isEmpty then [r.toPlaylist] else r.playlists.getD [])) := by
  simp only [processRendition]
  rw [if_neg (by simp [hs])]

theorem suppress_uri_false (ao : Bool) (pl : List Playlist) (mt gk : String)
    (r : Rendition) (hs : suppressRendition ao pl mt gk r = true) :
    truthyS r.uri = false := by
  rw [suppressRendition] at hs
  simp only [Bool.and_eq_true] at hs
  simpa using hs.1.2

theorem suppress_congr (ao : Bool) (pl pl2 : List Playlist) (mt gk : String)
    (r : Rendition)
    (hany : pl2.any (audioGroupMatches gk) = pl.any (audioGroupMatches gk)) :
    suppressRendition ao pl2 mt gk r = suppressRendition ao pl mt gk r := by
  rw [suppressRendition, suppressRendition, hany]

theorem suppress_false_of_nonempty (ao : Bool) (pl : List Playlist) (mt gk : String)
    (r : Rendition) (h : (r.playlists.getD []).isEmpty = false) :
    suppressRendition ao pl mt gk r = false := by
  rw [suppressRendition, h]
  simp

theorem processRendition_stable (resolve : ResolveUrl) (cgf : CreateGroupID)
    (u : Option String) (ao : Bool) (pl2 : List Playlist)
    (mt gk lk : String) (RR : Rendition) (S : List Playlist)
    (hRp : RR.playlists = some S)
    (hne : S.isEmpty = false)
    (hidem : mapIdxFrom (subPlaylistStep resolve cgf u mt gk lk) 0 S = S) :
    processRendition resolve cgf ao pl2 u mt gk lk RR = (RR, S) := by
  have hsup : suppressRendition ao pl2 mt gk RR = false :=
    suppress_false_of_nonempty ao pl2 mt gk RR (by rw [hRp]; simpa using hne)
  rw [processRendition_not_suppressed resolve cgf ao pl2 u mt gk lk RR hsup]
  have hE : (if (RR.playlists.getD []).isEmpty then [RR.toPlaylist]
      else RR.playlists.getD []) = S := by
    rw [hRp]
    simp only [Option.getD_some]
    rw [if_neg (by rw [hne]; exact Bool.false_ne_true)]
  rw [hE, hidem, ← hRp]

theorem processRendition_idem_step (resolve : ResolveUrl) (cgf : CreateGroupID)
    (u : Option String) (ao : Bool) (pl pl2 : List Playlist)
    (hcgf : ∀ a b c q1 q2, cgf a b c q1 = cgf a b c q2)
    (hany : ∀ gk2, pl2.any (audioGroupMatches gk2) = pl.any (audioGroupMatches gk2))
    (mt gk lk : String) (r : Rendition) :
    processRendition resolve cgf ao pl2 u mt gk lk
        ((resolveGroupUriVisit resolve u mt gk lk
          (processRendition resolve cgf ao pl u mt gk lk r).1).1) =
      ((resolveGroupUriVisit resolve u mt gk lk
          (processRendition resolve cgf ao pl u mt gk lk r).1).1,
       (processRendition resolve cgf ao pl u mt gk lk r).2) := by
  by_cases hs : suppressRendition ao pl mt gk r = true
  case pos =>
    have huri := suppress_uri_false ao pl mt gk r hs
    rw [processRendition_of_suppress resolve cgf ao pl u mt gk lk r hs]
    show processRendition resolve cgf ao pl2 u mt gk lk
        ((resolveGroupUriVisit resolve u mt gk lk r).1) =
      ((resolveGroupUriVisit resolve u mt gk lk r).1, [])
    rw [resolveGroupUriVisit_falsy resolve u mt gk lk r huri]
    rw [processRendition_of_suppress resolve cgf ao pl2 u mt gk lk r
      (by rw [suppress_congr ao pl pl2 mt gk r (hany gk)]; exact hs)]
  case neg =>
    have hs0 : suppressRendition ao pl mt gk r = false := Bool.eq_false_iff.mpr hs
    rw [processRendition_not_suppressed resolve cgf ao pl u mt gk lk r hs0]
    set S := mapIdxFrom (subPlaylistStep resolve cgf u mt gk lk) 0
        (if (r.playlists.getD []).isEmpty then [r.toPlaylist] else r.playlists.getD [])
      with hS
    have hidem0 : mapIdxFrom (subPlaylistStep resolve cgf u mt gk lk) 0 S = S := by
      rw [hS]
      exact mapIdxFrom_idem _
        (fun j q => subPlaylistStep_idem resolve cgf u mt gk lk j q hcgf) 0 _
    have hne0 : S.isEmpty = false := by
      rw [hS, mapIdxFrom_isEmpty]
      by_cases hq : (r.playlists.getD []).isEmpty = true
      · rw [if_pos hq]
        rfl
      · rw [if_neg hq]
        exact Bool.eq_false_iff.mpr hq
    show processRendition resolve cgf ao pl2 u mt gk lk
        ((resolveGroupUriVisit resolve u mt gk lk { r with playlists := some S }).1) =
      ((resolveGroupUriVisit resolve u mt gk lk { r with playlists := some S }).1, S)
    rw [resolveGroupUriVisit_eq]
    have hproj : ({ r with playlists := some S } : Rendition).uri = r.uri := rfl
    rw [hproj]
    by_cases hu : truthyS r.uri = true
    · rw [if_pos hu]
      exact processRendition_stable resolve cgf u ao pl2 mt gk lk _ S rfl hne0 hidem0
    · rw [if_neg hu]
      exact processRendition_stable resolve cgf u ao pl2 mt gk lk _ S rfl hne0 hidem0

theorem walk_pipeline_idem (resolve : ResolveUrl) (cgf : CreateGroupID)
    (u : Option String) (ao : Bool) (pl pl2 : List Playlist)
    (hcgf : ∀ a b c q1 q2, cgf a b c q1 = cgf a b c q2)
    (hany : ∀ gk2, pl2.any (audioGroupMatches gk2) = pl.any (audioGroupMatches gk2))
    (mg : Option MediaGroups) :
    (forEachMediaGroup (resolveGroupUriVisit resolve u)
        (forEachMediaGroup (processRendition resolve cgf ao pl2 u)
          (forEachMediaGroup (resolveGroupUriVisit resolve u)
            (forEachMediaGroup (processRendition resolve cgf ao pl u) mg).1).1).1).1 =
      (forEachMediaGroup (resolveGroupUriVisit resolve u)
        (forEachMediaGroup (processRendition resolve cgf ao pl u) mg).1).1 ∧
    (forEachMediaGroup (processRendition resolve cgf ao pl2 u)
        (forEachMediaGroup (resolveGroupUriVisit resolve u)
          (forEachMediaGroup (processRendition resolve cgf ao pl u) mg).1).1).2 =
      (forEachMediaGroup (processRendition resolve cgf ao pl u) mg).2 := by
  rw [forEachMediaGroup_fuse (processRendition resolve cgf ao pl u)
    (resolveGroupUriVisit resolve u) mg]
  rw [forEachMediaGroup_fuse
    (vComp (processRendition resolve cgf ao pl u) (resolveGroupUriVisit resolve u))
    (processRendition resolve cgf ao pl2 u) mg]
  rw [forEachMediaGroup_fuse
    (vComp (vComp (processRendition resolve cgf ao pl u) (resolveGroupUriVisit resolve u))
      (processRendition resolve cgf ao pl2 u))
    (resolveGroupUriVisit resolve u) mg]
  constructor
  · apply forEachMediaGroup_congr1
    intro mt2 gk2 lk2 r
    show (resolveGroupUriVisit resolve u mt2 gk2 lk2
        ((processRendition resolve cgf ao pl2 u mt2 gk2 lk2
          ((resolveGroupUriVisit resolve u mt2 gk2 lk2
            (processRendition resolve cgf ao pl u mt2 gk2 lk2 r).1).1)).1)).1 =
      (resolveGroupUriVisit resolve u mt2 gk2 lk2
        (processRendition resolve cgf ao pl u mt2 gk2 lk2 r).1).1
    rw [processRendition_idem_step resolve cgf u ao pl pl2 hcgf hany mt2 gk2 lk2 r]
    exact resolveGroupUriVisit_idem resolve u mt2 gk2 lk2
      (processRendition resolve cgf ao pl u mt2 gk2 lk2 r).1
  · apply forEachMediaGroup_congr2
    intro mt2 gk2 lk2 r
    show (processRendition resolve cgf ao pl2 u mt2 gk2 lk2
        ((resolveGroupUriVisit resolve u mt2 gk2 lk2
          (processRendition resolve cgf ao pl u mt2 gk2 lk2 r).1).1)).2 =
      (processRendition resolve cgf ao pl u mt2 gk2 lk2 r).2
    exact (congrArg Prod.snd
      (processRendition_idem_step resolve cgf u ao pl pl2 hcgf hany mt2 gk2 lk2 r)).trans rfl

theorem addProps_uri (resolve : ResolveUrl) (cgf : CreateGroupID)
    (main : Manifest) (uri : String) :
    (addPropertiesToMain resolve main uri cgf).uri = some uri := rfl

theorem addProps_playlists (resolve : ResolveUrl) (cgf : CreateGroupID)
    (main : Manifest) (uri : String) :
    (addPropertiesToMain resolve main uri cgf).playlists =
      setupAll resolve (some uri) (addPhonyUris main.playlists) := rfl

/-- C9 (amended): invoking `addPropertiesToMain` a second time with the same
base uri and a group-id function that does not depend on its sub-playlist
argument (as the default does not) produces no change at all: the second
result is structurally identical to the first, so no placeholder uri is
regenerated or duplicated and every playlist's id, uri, and resolvedUri are
unchanged.  The unamended claim (for an arbitrary group-id function) fails:
a function that reads the sub-playlist can observe the first run's
normalization and emit a different placeholder. -/
theorem addPropertiesToMain_idem (resolve : ResolveUrl) (cgf : CreateGroupID)
    (main : Manifest) (uri : String)
    (hcgf : ∀ a b c q1 q2, cgf a b c q1 = cgf a b c q2) :
    addPropertiesToMain resolve (addPropertiesToMain resolve main uri cgf) uri cgf =
      addPropertiesToMain resolve main uri cgf := by
  have hRtruthy : ∀ p ∈ (addPropertiesToMain resolve main uri cgf).playlists,
      truthyS p.uri = true := by
    intro p hp
    rw [addProps_playlists resolve cgf main uri, setupAll] at hp
    refine setupFrom_truthy resolve (some uri) 0 (addPhonyUris main.playlists) ?_ p hp
    rw [addPhonyUris]
    exact phonyFrom_truthy 0 main.playlists
  have hphonyR : addPhonyUris (addPropertiesToMain resolve main uri cgf).playlists =
      (addPropertiesToMain resolve main uri cgf).playlists := by
    rw [addPhonyUris]
    exact phonyFrom_of_truthy 0 _ hRtruthy
  have hsetupR : setupAll resolve (some uri)
      (addPropertiesToMain resolve main uri cgf).playlists =
      (addPropertiesToMain resolve main uri cgf).playlists := by
    rw [addProps_playlists resolve cgf main uri]
    simp only [setupAll]
    exact setupAllFrom_idem resolve (some uri) 0 _
  have haoR : isAudioOnly (phase1 (addPropertiesToMain resolve main uri cgf) uri) =
      isAudioOnly (phase1 main uri) := by
    rw [isAudioOnly_phony, isAudioOnly_phony, isAudioOnly, isAudioOnly]
    rw [addProps_playlists resolve cgf main uri]
    simp only [setupAll, addPhonyUris]
    rw [all_vb_setupFrom, all_vb_phonyFrom]
  have hanyR : ∀ gk2,
      (addPhonyUris (addPropertiesToMain resolve main uri cgf).playlists).any
        (audioGroupMatches gk2) =
      (addPhonyUris main.playlists).any (audioGroupMatches gk2) := by
    intro gk2
    rw [hphonyR, addProps_playlists resolve cgf main uri]
    simp only [setupAll]
    rw [any_matches_setupFrom]
  have hmg2 : (addPropertiesToMain resolve
      (addPropertiesToMain resolve main uri cgf) uri cgf).mediaGroups =
      (addPropertiesToMain resolve main uri cgf).mediaGroups := by
    rw [addProps_mediaGroups resolve cgf (addPropertiesToMain resolve main uri cgf) uri]
    rw [haoR, addProps_mediaGroups resolve cgf main uri]
    exact (walk_pipeline_idem resolve cgf (some uri) (isAudioOnly (phase1 main uri))
      (addPhonyUris main.playlists)
      (addPhonyUris (addPropertiesToMain resolve main uri cgf).playlists)
      hcgf hanyR main.mediaGroups).1
  have hRP : registeredPlaylists resolve cgf
      (addPropertiesToMain resolve main uri cgf) uri =
      registeredPlaylists resolve cgf main uri := by
    rw [registeredPlaylists, registeredPlaylists]
    congr 1
    · rw [haoR, addProps_mediaGroups resolve cgf main uri]
      exact (walk_pipeline_idem resolve cgf (some uri) (isAudioOnly (phase1 main uri))
        (addPhonyUris main.playlists)
        (addPhonyUris (addPropertiesToMain resolve main uri cgf).playlists)
        hcgf hanyR main.mediaGroups).2
    · rw [hphonyR, hsetupR, addProps_playlists resolve cgf main uri]
  have hbyKey : (addPropertiesToMain resolve
      (addPropertiesToMain resolve main uri cgf) uri cgf).byKey =
      (addPropertiesToMain resolve main uri cgf).byKey := by
    rw [addProps_byKey resolve cgf (addPropertiesToMain resolve main uri cgf) uri, hRP,
      addProps_byKey resolve cgf main uri]
    exact applyWrites_self main.byKey _
  have hpl2 : (addPropertiesToMain resolve
      (addPropertiesToMain resolve main uri cgf) uri cgf).playlists =
      (addPropertiesToMain resolve main uri cgf).playlists := by
    rw [addProps_playlists resolve cgf (addPropertiesToMain resolve main uri cgf) uri]
    rw [hphonyR]
    exact hsetupR
  refine Manifest.ext ?_ ?_ ?_ ?_ ?_ ?_ ?_ ?_ ?_ ?_ ?_ ?_ ?_
  · rfl
  · rfl
  · rfl
  · rfl
  · rfl
  · rfl
  · rfl
  · rfl
  · rfl
  · rfl
  · exact hpl2
  · exact hbyKey
  · exact hmg2

/-- C9 counterexample: with a group-id function that reads the sub-playlist
(returning "" before normalization and "X" after an id has been assigned),
the second invocation rewrites the synthesized sub-playlist's uri from ""
to "X": the claim fails for an arbitrary group-id function. -/
theorem addPropertiesToMain_idem_cex :
    firstAudioSubUri (addPropertiesToMain cRes c9m "base" c9cgf) = some (some "") ∧
    firstAudioSubUri (addPropertiesToMain cRes
      (addPropertiesToMain cRes c9m "base" c9cgf) "base" c9cgf) = some (some "X") := by
  constructor
  · decide
  · decide

/-- C9 witness: with the default group-id function, re-running
`addPropertiesToMain` on the concrete document `c9m` returns the identical
document. -/
theorem addPropertiesToMain_idem_witness :
    addPropertiesToMain cRes (addPropertiesToMain cRes c9m "base" defaultCreateGroupID)
        "base" defaultCreateGroupID =
      addPropertiesToMain cRes c9m "base" defaultCreateGroupID :=
  addPropertiesToMain_idem cRes defaultCreateGroupID c9m "base"
    (fun _ _ _ _ _ => rfl)

end Theorems

end Vhs
